import Mathlib

/-!
# mapViewOfFile.cpp: a sequential model of the mapping worker and of the harness

The program is modelled by explicit state passing.  A `World` is what one thread sees of
the operating system: the kernel handles, views and address-space reservations that are
live, and the log of every call made so far.  The answers of the operating system are not
computed; they are read from an `Os` record, so a statement that holds for every `Os`
holds for every behaviour of the operating system (concurrent threads included, as far
as they influence the answers this thread receives).

C++ functions return `Except Exn α × World`: the value or the exception in flight,
together with the world in which the function was left.
-/

namespace MapViewOfFile

/-! ## Values -/

/-- Virtual address (`void*`); `0` is `nullptr`. -/
abbrev Addr := Nat

/-- The values of a Win32 `HANDLE`: `NULL`, `INVALID_HANDLE_VALUE`, or a kernel object. -/
inductive HANDLE
  | null
  | invalid
  | valid (id : Nat)
  deriving DecidableEq, Repr

/-- The exceptions thrown in the source; both classes derive from `std::exception`. -/
inductive Exn
  | runtime_error (what : String)
  | logic_error (what : String)
  deriving DecidableEq, Repr

/-- The `what()` of an exception. -/
def Exn.what : Exn → String
  | .runtime_error what => what
  | .logic_error what => what

/-- The compile-time constants of the first anonymous namespace, and the width of `size_t`
on the build target. -/
structure Config where
  LogCollisions : Bool
  ConcurrencyCount : Nat
  RetryCount : Nat
  UseTopAddresses : Bool
  IterationCount : Nat
  sizeBits : Nat

/-- The constants as they stand in the source (lines 11 to 15), for a 64-bit target. -/
def sourceConfig : Config :=
  { LogCollisions := false, ConcurrencyCount := 50, RetryCount := 10,
    UseTopAddresses := true, IterationCount := 1000, sizeBits := 64 }

/-- One call, with its arguments and its answer. `getTopFreeAddress` records a return of
the program's own `GetTopFreeAddress`; `printCollision` (line 131), `printException`
(line 175) and `print` are writes to `std::cout`; the others are Win32 calls. -/
inductive Call
  | createFileA (file : String) (result : HANDLE)
  | getFileSizeEx (h : HANDLE) (result : Option Int)
  | createFileMapping (h : HANDLE) (sizeHigh : Int) (sizeLow : Int) (result : HANDLE)
  | closeHandle (h : HANDLE)
  | virtualAlloc (size : Nat) (result : Addr)
  | virtualFree (p : Addr)
  | getTopFreeAddress (size : Nat) (result : Addr)
  | mapViewOfFileEx (h : HANDLE) (size : Nat) (hint : Addr) (result : Addr)
  | unmapViewOfFile (p : Addr)
  | printCollision (threadId : Nat) (gle : Nat) (addr : Addr) (retry : Nat)
  | printException (what : String)
  | print (s : String)
  deriving DecidableEq, Repr

/-- The answers of the operating system to one thread. `virtualAlloc i` answers the
thread's `i`-th `VirtualAlloc`, `mapViewOfFileEx i` its `i`-th `MapViewOfFileEx` (`0` is
`NULL`), `getLastError i` is the error code left by that `i`-th `MapViewOfFileEx`. -/
structure Os where
  createFileA : String → HANDLE
  getFileSizeEx : Option Int
  createFileMapping : HANDLE
  virtualAlloc : Nat → Addr
  mapViewOfFileEx : Nat → Addr
  getLastError : Nat → Nat
  threadId : Nat

/-- What is live for one thread, how many answers it has consumed, and its calls. -/
structure World where
  handles : List Nat
  views : List Addr
  reserved : List Addr
  nAlloc : Nat
  nMap : Nat
  log : List Call
  deriving DecidableEq, Repr

/-- The world of a thread that has not called anything yet. -/
def World.init : World :=
  { handles := [], views := [], reserved := [], nAlloc := 0, nMap := 0, log := [] }

/-- Append a call to the log. -/
def World.emit (w : World) (c : Call) : World :=
  { w with log := w.log ++ [c] }

/-! ## The Win32 calls -/

/-- A kernel object becomes live when a call answers with a valid handle. -/
def World.acquire (w : World) : HANDLE → World
  | .valid id => { w with handles := id :: w.handles }
  | _ => w

/-- Model of `CreateFileA`. -/
def CreateFileA (os : Os) (file : String) (w : World) : HANDLE × World :=
  let h := os.createFileA file
  (h, (w.acquire h).emit (.createFileA file h))

/-- Model of `GetFileSizeEx`: `none` is the answer `FALSE`. -/
def GetFileSizeEx (os : Os) (h : HANDLE) (w : World) : Option Int × World :=
  (os.getFileSizeEx, w.emit (.getFileSizeEx h os.getFileSizeEx))

/-- Model of `CreateFileMapping` with `PAGE_READONLY`. -/
def CreateFileMapping (os : Os) (h : HANDLE) (sizeHigh sizeLow : Int) (w : World) :
    HANDLE × World :=
  let m := os.createFileMapping
  (m, (w.acquire m).emit (.createFileMapping h sizeHigh sizeLow m))

/-- Model of `CloseHandle`: a valid handle stops being live. -/
def CloseHandle (h : HANDLE) (w : World) : World :=
  match h with
  | .valid id => { w with handles := w.handles.erase id, log := w.log ++ [.closeHandle h] }
  | _ => w.emit (.closeHandle h)

/-- Model of `VirtualAlloc(nullptr, size, MEM_TOP_DOWN | MEM_RESERVE, PAGE_NOACCESS)`. -/
def VirtualAlloc (os : Os) (size : Nat) (w : World) : Addr × World :=
  let p := os.virtualAlloc w.nAlloc
  (p, { w with
          reserved := if p = 0 then w.reserved else p :: w.reserved,
          nAlloc := w.nAlloc + 1,
          log := w.log ++ [.virtualAlloc size p] })

/-- Model of `VirtualFree(p, 0, MEM_RELEASE)`; on `nullptr` the call fails and changes
nothing. -/
def VirtualFree (p : Addr) (w : World) : World :=
  { w with
      reserved := if p = 0 then w.reserved else w.reserved.erase p,
      log := w.log ++ [.virtualFree p] }

/-- Model of `MapViewOfFileEx(h, FILE_MAP_READ, 0, 0, size, hint)`. -/
def MapViewOfFileEx (os : Os) (h : HANDLE) (size : Nat) (hint : Addr) (w : World) :
    Addr × World :=
  let d := os.mapViewOfFileEx w.nMap
  (d, { w with
          views := if d = 0 then w.views else d :: w.views,
          nMap := w.nMap + 1,
          log := w.log ++ [.mapViewOfFileEx h size hint d] })

/-- Model of `UnmapViewOfFile`. -/
def UnmapViewOfFile (p : Addr) (w : World) : World :=
  { w with
      views := if p = 0 then w.views else w.views.erase p,
      log := w.log ++ [.unmapViewOfFile p] }

/-! ## The scoped owners (lines 32 to 54) -/

/-- A `ScopedHanle` is a `std::unique_ptr` over a `HANDLE`; `HANDLE.null` is the empty one. -/
abbrev ScopedHanle := HANDLE

/-- A `ScopedViewOfFile` is a `std::unique_ptr<void, UnmapFileViewFunctor>`. -/
abbrev ScopedViewOfFile := Addr

/-- Destructor and `reset()` of `ScopedHanle`: the deleter runs unless the pointer is null. -/
def ScopedHanle.release (h : ScopedHanle) (w : World) : World :=
  if h = .null then w else CloseHandle h w

/-- Destructor of `ScopedViewOfFile`: the deleter runs unless the pointer is null. -/
def ScopedViewOfFile.release (p : ScopedViewOfFile) (w : World) : World :=
  if p = 0 then w else UnmapViewOfFile p w

/-! ## The functions of the source -/

/-- Function `GetTopFreeAddress` (lines 83 to 92). -/
def GetTopFreeAddress (cfg : Config) (os : Os) (size : Nat) (w : World) :
    Except Exn Addr × World :=
  if !cfg.UseTopAddresses then
    (.ok 0, w.emit (.getTopFreeAddress size 0))
  else
    let (ptr, w1) := VirtualAlloc os size w
    let w2 := VirtualFree ptr w1
    (.ok ptr, w2.emit (.getTopFreeAddress size ptr))

/-- Function `OpenFile` (lines 94 to 100). -/
def OpenFile (os : Os) (file : String) (w : World) : Except Exn ScopedHanle × World :=
  let (h, w1) := CreateFileA os file w
  if h = .invalid then (.error (.runtime_error "can't open file"), w1)
  else (.ok h, w1)

/-- Function `GetSizeOfFile` (lines 102 to 108). -/
def GetSizeOfFile (os : Os) (file : ScopedHanle) (w : World) : Except Exn Int × World :=
  match GetFileSizeEx os file w with
  | (none, w1) => (.error (.runtime_error "Can't receive file size"), w1)
  | (some fileSz, w1) => (.ok fileSz, w1)

/-- Function `CreateFileMap` (lines 110 to 117): `HighPart` and `LowPart` are the two 32-bit halves
of `QuadPart`. -/
def CreateFileMap (os : Os) (file : ScopedHanle) (fileSize : Int) (w : World) :
    Except Exn ScopedHanle × World :=
  let (h, w1) := CreateFileMapping os file (fileSize / 2 ^ 32) (fileSize % 2 ^ 32) w
  if h = .null then (.error (.runtime_error "can't create file mapping"), w1)
  else (.ok h, w1)

/-- The loop of `MapFileAtTopAddresses` (lines 121 to 142), by recursion on the number
`RetryCount - it` of iterations that remain: `it < RetryCount` holds exactly when that
number is not zero. `it` is a `uint_fast8_t` that never exceeds `RetryCount`, itself a
`uint_fast8_t`, so `it++` does not wrap. After the loop come lines 144 and 145. -/
def MapFileAtTopAddresses_loop (cfg : Config) (os : Os) (fileMap : ScopedHanle)
    (mapSize : Nat) : Nat → Nat → World → Except Exn ScopedViewOfFile × World
  | 0, _, w => (.ok 0, w.emit (.print "FAILED to map\n"))
  | n + 1, it, w =>
    match GetTopFreeAddress cfg os mapSize w with
    | (.error e, w1) => (.error e, w1)
    | (.ok addr, w1) =>
      let (data, w2) := MapViewOfFileEx os fileMap mapSize addr w1
      if data = 0 then
        let w3 :=
          if cfg.LogCollisions then
            w2.emit (.printCollision os.threadId (os.getLastError w1.nMap) addr it)
          else w2
        MapFileAtTopAddresses_loop cfg os fileMap mapSize n (it + 1) w3
      else if addr ≠ 0 ∧ addr ≠ data then
        (.error (.logic_error "addr != data"), w2)
      else
        (.ok data, w2)

/-- Function `MapFileAtTopAddresses` (lines 119 to 146). -/
def MapFileAtTopAddresses (cfg : Config) (os : Os) (fileMap : ScopedHanle) (mapSize : Nat)
    (w : World) : Except Exn ScopedViewOfFile × World :=
  MapFileAtTopAddresses_loop cfg os fileMap mapSize cfg.RetryCount 0 w

/-- The `min` of `Windows.h`: `(((a) < (b)) ? (a) : (b))`. -/
def minWindef (a b : Nat) : Nat := if a < b then a else b

/-- The `static_cast<size_t>` of a `LONGLONG`. -/
def static_cast_size_t (cfg : Config) (q : Int) : Nat := (q % 2 ^ cfg.sizeBits).toNat

/-- Function `Map` (lines 149 to 160). When an exception leaves the function, the owners in scope
are destroyed in reverse order of construction; the view returned by
`MapFileAtTopAddresses` is a temporary, destroyed at the end of the statement. -/
def Map (cfg : Config) (os : Os) (fileName : String) (w : World) : Except Exn Unit × World :=
  match OpenFile os fileName w with
  | (.error e, w1) => (.error e, w1)
  | (.ok file, w1) =>
    match GetSizeOfFile os file w1 with
    | (.error e, w2) => (.error e, ScopedHanle.release file w2)
    | (.ok fileSize, w2) =>
      match CreateFileMap os file fileSize w2 with
      | (.error e, w3) => (.error e, ScopedHanle.release file w3)
      | (.ok fileMap, w3) =>
        let w4 := ScopedHanle.release file w3
        let mapSize := 1024 * 1024 * 22
        match MapFileAtTopAddresses cfg os fileMap
            (minWindef mapSize (static_cast_size_t cfg fileSize)) w4 with
        | (.error e, w5) => (.error e, ScopedHanle.release fileMap w5)
        | (.ok view, w5) =>
          let w6 := ScopedViewOfFile.release view w5
          (.ok (), ScopedHanle.release fileMap w6)

/-- Function `Work` (lines 166 to 177), after the wait on `startEvent`: the handler catches
`const std::exception&`, which matches every `Exn`, and prints its `what()`. -/
def Work (cfg : Config) (os : Os) (file : String) (w : World) : Except Exn Unit × World :=
  match Map cfg os file w with
  | (.ok (), w1) => (.ok (), w1)
  | (.error ex, w1) => (.ok (), w1.emit (.printException ex.what))

/-! ## The harness (lines 163 to 234)

Only the events of the main thread are recorded; they are sequential. Each worker runs
`Work` against the answers its own thread receives. Creating a `std::thread` is taken to
succeed. -/

/-- How the process ends: `return` from `main`, or `std::terminate`, which is what an
exception leaving a thread function leads to. -/
inductive Exit
  | code (c : Int)
  | terminate
  deriving DecidableEq, Repr

/-- The events of the main thread. -/
inductive MainEv
  | print (s : String)
  | createEventA (it : Nat) (manualReset initialState : Bool) (result : HANDLE)
  | spawn (it j : Nat)
  | chronometerStart (it : Nat) (now : Int)
  | setEvent (it : Nat) (h : HANDLE)
  | join (it j : Nat)
  | elapsedTicks (it : Nat) (ticks : Int)
  | closeHandle (it : Nat) (h : HANDLE)
  | printAverage (ticks : Nat)
  | getchar
  deriving DecidableEq, Repr

/-- What `main` receives from outside: the outcome of `GetFileName`, the answer to the
`CreateEventA` of each iteration, the answers each worker thread receives, and the
successive readings of `high_resolution_clock`. -/
structure Env where
  getFileName : Except Exn String
  createEventA : Nat → HANDLE
  worker : Nat → Nat → Os
  now : Nat → Int

/-- Class `Chronometer` (lines 179 to 194): the reading of the clock at construction. -/
structure Chronometer where
  reset_time : Int

/-- Method `Chronometer::ElapsedTicks`, given the reading `now` of the clock at the call. -/
def Chronometer.ElapsedTicks (c : Chronometer) (now : Int) : Int := now - c.reset_time

/-- Conversion of a `long long` to `uint64_t`. -/
def toU64 (x : Int) : Nat := (x % 2 ^ 64).toNat

/-- The first range-for over `th` (lines 210 and 211), `n` threads remaining from index `j`. -/
def spawnThreads (it : Nat) : Nat → Nat → List MainEv → List MainEv
  | 0, _, tr => tr
  | n + 1, j, tr => spawnThreads it n (j + 1) (tr ++ [.spawn it j])

/-- The second range-for over `th` (lines 218 and 219). The thread `j` has run `Work`; had
an exception left `Work`, the process would have ended in `std::terminate`. -/
def joinThreads (cfg : Config) (env : Env) (file : String) (it : Nat) :
    Nat → Nat → List MainEv → Bool × List MainEv
  | 0, _, tr => (true, tr)
  | n + 1, j, tr =>
    match (Work cfg (env.worker it j) file World.init).1 with
    | .ok () => joinThreads cfg env file it n (j + 1) (tr ++ [.join it j])
    | .error _ => (false, tr)

/-- The loop of `main` (lines 204 to 223), by recursion on the number of iterations that
remain. Iteration `it` reads the clock twice, readings `2 * it` and `2 * it + 1`. At the
end of the body `_ev` is destroyed, which closes the event unless it is null. The result
is `elapsedSum`, or `none` when the process was terminated. -/
def mainLoop (cfg : Config) (env : Env) (file : String) :
    Nat → Nat → Nat → List MainEv → Option Nat × List MainEv
  | 0, _, elapsedSum, tr => (some elapsedSum, tr)
  | n + 1, it, elapsedSum, tr =>
    let startEvent := env.createEventA it
    let tr1 := tr ++ [.createEventA it true false startEvent]
    let tr2 := spawnThreads it cfg.ConcurrencyCount 0 tr1
    let chronometer : Chronometer := { reset_time := env.now (2 * it) }
    let tr3 := tr2 ++ [.chronometerStart it chronometer.reset_time]
    let tr4 := tr3 ++ [.setEvent it startEvent]
    match joinThreads cfg env file it cfg.ConcurrencyCount 0 tr4 with
    | (false, tr5) => (none, tr5)
    | (true, tr5) =>
      let elapsed := chronometer.ElapsedTicks (env.now (2 * it + 1))
      let tr6 := tr5 ++ [.elapsedTicks it elapsed]
      let elapsedSum1 := (elapsedSum + toU64 elapsed) % 2 ^ 64
      let tr7 := if startEvent = .null then tr6 else tr6 ++ [.closeHandle it startEvent]
      mainLoop cfg env file n (it + 1) elapsedSum1 tr7

/-- Function `main` (lines 197 to 234). `IterationCount` is positive in the source; the division is
that of `uint64_t`. -/
def main (cfg : Config) (env : Env) : Exit × List MainEv :=
  match env.getFileName with
  | .error ex => (.code (-1), [.print ("Exception occurred:\n" ++ ex.what ++ "\n")])
  | .ok fileName =>
    match mainLoop cfg env fileName cfg.IterationCount 0 0
        [.print ("FileName to map: " ++ fileName ++ "\n")] with
    | (none, tr) => (.terminate, tr)
    | (some elapsedSum, tr) =>
      (.code 0, tr ++ [.printAverage (elapsedSum / cfg.IterationCount), .getchar])

/-! ## Observations on a log -/

/-- The call is a view-mapping attempt. -/
def Call.isMapView : Call → Bool
  | .mapViewOfFileEx _ _ _ _ => true
  | _ => false

/-- The call is a return of the address-hint resolver. -/
def Call.isResolve : Call → Bool
  | .getTopFreeAddress _ _ => true
  | _ => false

/-- Number of view-mapping attempts in a log. -/
def attempts (log : List Call) : Nat := log.countP Call.isMapView

/-- Number of calls of the address-hint resolver in a log. -/
def resolutions (log : List Call) : Nat := log.countP Call.isResolve

/-! ## One turn of the retry loop -/

/-- The hint that `GetTopFreeAddress` returns when the next `VirtualAlloc` is the `i`-th. -/
def hintAt (cfg : Config) (os : Os) (i : Nat) : Addr :=
  if cfg.UseTopAddresses then os.virtualAlloc i else 0

/-- The calls of one `GetTopFreeAddress(size)`. -/
def resolveCalls (cfg : Config) (os : Os) (size i : Nat) : List Call :=
  if cfg.UseTopAddresses then
    [.virtualAlloc size (os.virtualAlloc i), .virtualFree (os.virtualAlloc i),
      .getTopFreeAddress size (os.virtualAlloc i)]
  else [.getTopFreeAddress size 0]

/-- The calls of one turn of the loop: the resolver, the attempt, and the diagnostic line
when the attempt failed and `LogCollisions` is set. -/
def turnCalls (cfg : Config) (os : Os) (fileMap : HANDLE) (size it i m : Nat) : List Call :=
  resolveCalls cfg os size i
    ++ [.mapViewOfFileEx fileMap size (hintAt cfg os i) (os.mapViewOfFileEx m)]
    ++ (if os.mapViewOfFileEx m = 0 ∧ cfg.LogCollisions = true then
          [.printCollision os.threadId (os.getLastError m) (hintAt cfg os i) it]
        else [])

/-- The world after one turn of the loop. -/
def afterTurn (cfg : Config) (os : Os) (fileMap : HANDLE) (size it : Nat) (w : World) : World :=
  { handles := w.handles
    views := if os.mapViewOfFileEx w.nMap = 0 then w.views
             else os.mapViewOfFileEx w.nMap :: w.views
    reserved := w.reserved
    nAlloc := if cfg.UseTopAddresses then w.nAlloc + 1 else w.nAlloc
    nMap := w.nMap + 1
    log := w.log ++ turnCalls cfg os fileMap size it w.nAlloc w.nMap }

/-! ## Definitions used by the statements and the proofs -/

/-- The world after `j` turns of the loop, the first of them with counter `it`. -/
def turns (cfg : Config) (os : Os) (fileMap : HANDLE) (size : Nat) : Nat → Nat → World → World
  | 0, _, w => w
  | j + 1, it, w => turns cfg os fileMap size j (it + 1) (afterTurn cfg os fileMap size it w)

/-- The outcome of a turn whose attempt did not fail (lines 138 to 141). -/
def verdict (cfg : Config) (os : Os) (w : World) : Except Exn ScopedViewOfFile :=
  if hintAt cfg os w.nAlloc ≠ 0 ∧ hintAt cfg os w.nAlloc ≠ os.mapViewOfFileEx w.nMap then
    .error (.logic_error "addr != data")
  else .ok (os.mapViewOfFileEx w.nMap)

/-- The call is a return of the resolver or a view-mapping attempt. -/
def Call.isResolveOrMapView (c : Call) : Bool := c.isResolve || c.isMapView

/-- The calls of the first `j` turns of a run of the loop that starts in `w`. -/
def turnsCalls (cfg : Config) (os : Os) (fileMap : HANDLE) (size it : Nat) (w : World)
    (j : Nat) : List Call :=
  (List.range j).flatMap
    (fun i => turnCalls cfg os fileMap size (it + i) (w.nAlloc + i) (w.nMap + i))

/-- An operating system that refuses every view. -/
def osAllFail : Os :=
  { createFileA := fun _ => .valid 1, getFileSizeEx := some 4096,
    createFileMapping := .valid 2, virtualAlloc := fun i => 0x7FFE0000 - 0x10000 * i,
    mapViewOfFileEx := fun _ => 0, getLastError := fun _ => 487, threadId := 7 }

/-- An operating system that refuses the first two views and grants the third at the hint. -/
def osThirdHit : Os :=
  { createFileA := fun _ => .valid 1, getFileSizeEx := some 4096,
    createFileMapping := .valid 2, virtualAlloc := fun i => 0x7FFE0000 - 0x10000 * i,
    mapViewOfFileEx := fun i => if i < 2 then 0 else 0x7FFE0000 - 0x10000 * i,
    getLastError := fun _ => 487, threadId := 7 }

/-- An operating system that refuses the first view and then answers an address that is
not the hint. -/
def osMismatch : Os :=
  { createFileA := fun _ => .valid 1, getFileSizeEx := some 4096,
    createFileMapping := .valid 2, virtualAlloc := fun i => 0x7FFE0000 - 0x10000 * i,
    mapViewOfFileEx := fun i => if i < 1 then 0 else 0x10000,
    getLastError := fun _ => 487, threadId := 7 }

/-- Every view-mapping attempt among the calls is made on `fileMap` with length `size`. -/
def AttemptsUse (fileMap : HANDLE) (size : Nat) (calls : List Call) : Prop :=
  ∀ c, c ∈ calls → c.isMapView = true → ∃ hint r, c = .mapViewOfFileEx fileMap size hint r

/-- The world in which `Map` calls `MapFileAtTopAddresses`: the file was opened, its size
read, the mapping created and the file handle reset. -/
def afterSetup (os : Os) (file : String) (q : Int) (w : World) : World :=
  ScopedHanle.release (os.createFileA file)
    (((((w.acquire (os.createFileA file)).emit
        (.createFileA file (os.createFileA file))).emit
        (.getFileSizeEx (os.createFileA file) (some q))).acquire os.createFileMapping).emit
        (.createFileMapping (os.createFileA file) (q / 2 ^ 32) (q % 2 ^ 32)
          os.createFileMapping))

/-- The calls of `Map` up to the call of `MapFileAtTopAddresses`. -/
def setupCalls (os : Os) (file : String) (q : Int) : List Call :=
  [.createFileA file (os.createFileA file),
    .getFileSizeEx (os.createFileA file) (some q),
    .createFileMapping (os.createFileA file) (q / 2 ^ 32) (q % 2 ^ 32) os.createFileMapping]
  ++ (if os.createFileA file = .null then [] else [.closeHandle (os.createFileA file)])

/-- The event is the creation of a worker thread. -/
def MainEv.isSpawn : MainEv → Bool
  | .spawn _ _ => true
  | _ => false

/-- The event is a join of a worker thread. -/
def MainEv.isJoin : MainEv → Bool
  | .join _ _ => true
  | _ => false

/-- The elapsed ticks that iteration `it` measures. -/
def ticksOf (env : Env) (it : Nat) : Int :=
  Chronometer.ElapsedTicks { reset_time := env.now (2 * it) } (env.now (2 * it + 1))

/-- The events of iteration `it`, in the order of the source: the start event is created
(manual reset, initially not signalled), the workers are spawned, the chronometer is
started, the event is set, the workers are joined, the chronometer is read, and the
event is closed. -/
def iterationEvents (cfg : Config) (env : Env) (it : Nat) : List MainEv :=
  [.createEventA it true false (env.createEventA it)]
    ++ (List.range cfg.ConcurrencyCount).map (fun j => .spawn it j)
    ++ [.chronometerStart it (env.now (2 * it)), .setEvent it (env.createEventA it)]
    ++ (List.range cfg.ConcurrencyCount).map (fun j => .join it j)
    ++ [.elapsedTicks it (ticksOf env it)]
    ++ (if env.createEventA it = .null then [] else [.closeHandle it (env.createEventA it)])

/-- The value of `elapsedSum` after `n` iterations, the first of them `it`. -/
def sumTicks (env : Env) : Nat → Nat → Nat → Nat
  | 0, _, acc => acc
  | n + 1, it, acc => sumTicks env n (it + 1) ((acc + toU64 (ticksOf env it)) % 2 ^ 64)

/-- The sum of the elapsed ticks of the first `n` iterations, as an integer. -/
def totalTicks (env : Env) (n : Nat) : Int := ((List.range n).map (ticksOf env)).sum

/-- A small configuration, with the source's retry bound and strategy. -/
def smallConfig : Config :=
  { LogCollisions := false, ConcurrencyCount := 2, RetryCount := 10,
    UseTopAddresses := true, IterationCount := 3, sizeBits := 64 }

/-- An environment in which the file name is obtained, every event is created, every
worker gets its view at the third attempt, and the clock advances by 1000 ticks between
two readings. -/
def envSample : Env :=
  { getFileName := .ok "mapViewOfFile.exe", createEventA := fun it => .valid (100 + it),
    worker := fun _ _ => osThirdHit, now := fun k => 1000 * k }

/-- An operating system in which no file can be opened. -/
def osNoFile : Os :=
  { createFileA := fun _ => .invalid, getFileSizeEx := none, createFileMapping := .null,
    virtualAlloc := fun _ => 0, mapViewOfFileEx := fun _ => 0, getLastError := fun _ => 2,
    threadId := 7 }

/-- An environment in which the file name is obtained but the file cannot be opened by
any worker. -/
def envMissing : Env :=
  { getFileName := .ok "missing.exe", createEventA := fun it => .valid (100 + it),
    worker := fun _ _ => osNoFile, now := fun k => 1000 * k }

theorem GetTopFreeAddress_eq (cfg : Config) (os : Os) (size : Nat) (w : World) :
    GetTopFreeAddress cfg os size w =
      (.ok (hintAt cfg os w.nAlloc),
        { w with
            nAlloc := if cfg.UseTopAddresses then w.nAlloc + 1 else w.nAlloc
            log := w.log ++ resolveCalls cfg os size w.nAlloc }) := by
  cases hu : cfg.UseTopAddresses
  · simp [GetTopFreeAddress, hintAt, resolveCalls, World.emit, hu]
  · by_cases hp : os.virtualAlloc w.nAlloc = 0
    · simp [GetTopFreeAddress, hintAt, resolveCalls, World.emit, VirtualAlloc, VirtualFree,
        hu, hp]
    · simp [GetTopFreeAddress, hintAt, resolveCalls, World.emit, VirtualAlloc, VirtualFree,
        hu, hp]

theorem loop_succ_of_fail (cfg : Config) (os : Os) (fileMap : HANDLE) (size n it : Nat)
    (w : World) (h : os.mapViewOfFileEx w.nMap = 0) :
    MapFileAtTopAddresses_loop cfg os fileMap size (n + 1) it w =
      MapFileAtTopAddresses_loop cfg os fileMap size n (it + 1)
        (afterTurn cfg os fileMap size it w) := by
  rw [MapFileAtTopAddresses_loop, GetTopFreeAddress_eq]
  cases hl : cfg.LogCollisions <;>
    simp [MapViewOfFileEx, afterTurn, turnCalls, World.emit, h, hl]

theorem loop_succ_of_hit (cfg : Config) (os : Os) (fileMap : HANDLE) (size n it : Nat)
    (w : World) (h : os.mapViewOfFileEx w.nMap ≠ 0) :
    MapFileAtTopAddresses_loop cfg os fileMap size (n + 1) it w =
      (if hintAt cfg os w.nAlloc ≠ 0 ∧ hintAt cfg os w.nAlloc ≠ os.mapViewOfFileEx w.nMap then
          .error (.logic_error "addr != data")
        else .ok (os.mapViewOfFileEx w.nMap),
        afterTurn cfg os fileMap size it w) := by
  rw [MapFileAtTopAddresses_loop, GetTopFreeAddress_eq]
  by_cases hm : hintAt cfg os w.nAlloc ≠ 0 ∧ hintAt cfg os w.nAlloc ≠ os.mapViewOfFileEx w.nMap
  · simp [MapViewOfFileEx, afterTurn, turnCalls, h, hm]
  · simp [MapViewOfFileEx, afterTurn, turnCalls, h, hm]

theorem turnCalls_index (cfg : Config) (os : Os) (fileMap : HANDLE) (size it a b m : Nat)
    (h : cfg.UseTopAddresses = true → a = b) :
    turnCalls cfg os fileMap size it a m = turnCalls cfg os fileMap size it b m := by
  cases hu : cfg.UseTopAddresses
  · simp [turnCalls, resolveCalls, hintAt, hu]
  · rw [h hu]

theorem hintAt_index (cfg : Config) (os : Os) (a b : Nat)
    (h : cfg.UseTopAddresses = true → a = b) : hintAt cfg os a = hintAt cfg os b := by
  cases hu : cfg.UseTopAddresses
  · simp [hintAt, hu]
  · rw [h hu]

theorem range_succ_flatMap {α : Type} (f : Nat → List α) (k : Nat) :
    (List.range (k + 1)).flatMap f = f 0 ++ (List.range k).flatMap (fun i => f (i + 1)) := by
  rw [List.range_succ_eq_map]
  simp [List.flatMap_map, Function.comp_def]

theorem turns_nMap (cfg : Config) (os : Os) (fileMap : HANDLE) (size : Nat) :
    ∀ (j it : Nat) (w : World), (turns cfg os fileMap size j it w).nMap = w.nMap + j := by
  intro j
  induction j with
  | zero => intro it w; rfl
  | succ j ih =>
    intro it w
    rw [turns, ih]
    simp only [afterTurn]
    omega

theorem turns_nAlloc (cfg : Config) (os : Os) (fileMap : HANDLE) (size : Nat) :
    ∀ (j it : Nat) (w : World), cfg.UseTopAddresses = true →
      (turns cfg os fileMap size j it w).nAlloc = w.nAlloc + j := by
  intro j
  induction j with
  | zero => intro it w _; rfl
  | succ j ih =>
    intro it w hu
    rw [turns, ih _ _ hu]
    simp only [afterTurn, hu, if_true]
    omega

theorem turns_handles (cfg : Config) (os : Os) (fileMap : HANDLE) (size : Nat) :
    ∀ (j it : Nat) (w : World), (turns cfg os fileMap size j it w).handles = w.handles := by
  intro j
  induction j with
  | zero => intro it w; rfl
  | succ j ih => intro it w; rw [turns, ih]; rfl

theorem turns_reserved (cfg : Config) (os : Os) (fileMap : HANDLE) (size : Nat) :
    ∀ (j it : Nat) (w : World), (turns cfg os fileMap size j it w).reserved = w.reserved := by
  intro j
  induction j with
  | zero => intro it w; rfl
  | succ j ih => intro it w; rw [turns, ih]; rfl

theorem turns_views (cfg : Config) (os : Os) (fileMap : HANDLE) (size : Nat) :
    ∀ (j it : Nat) (w : World), (∀ i, i < j → os.mapViewOfFileEx (w.nMap + i) = 0) →
      (turns cfg os fileMap size j it w).views = w.views := by
  intro j
  induction j with
  | zero => intro it w _; rfl
  | succ j ih =>
    intro it w h
    have h0 : os.mapViewOfFileEx w.nMap = 0 := by simpa using h 0 (Nat.succ_pos j)
    rw [turns, ih]
    · simp [afterTurn, h0]
    · intro i hi
      have := h (i + 1) (Nat.succ_lt_succ hi)
      simpa [afterTurn, Nat.add_assoc, Nat.add_comm 1 i] using this

theorem turns_log (cfg : Config) (os : Os) (fileMap : HANDLE) (size : Nat) :
    ∀ (j it : Nat) (w : World),
      (turns cfg os fileMap size j it w).log =
        w.log ++ (List.range j).flatMap
          (fun i => turnCalls cfg os fileMap size (it + i) (w.nAlloc + i) (w.nMap + i)) := by
  intro j
  induction j with
  | zero => intro it w; simp [turns]
  | succ j ih =>
    intro it w
    rw [turns, ih, range_succ_flatMap]
    have e : ∀ i, turnCalls cfg os fileMap size (it + 1 + i)
          ((afterTurn cfg os fileMap size it w).nAlloc + i)
          ((afterTurn cfg os fileMap size it w).nMap + i)
        = turnCalls cfg os fileMap size (it + (i + 1)) (w.nAlloc + (i + 1))
          (w.nMap + (i + 1)) := by
      intro i
      have e1 : it + 1 + i = it + (i + 1) := by omega
      have e2 : (afterTurn cfg os fileMap size it w).nMap + i = w.nMap + (i + 1) := by
        simp only [afterTurn]; omega
      rw [e1, e2]
      apply turnCalls_index
      intro hu
      simp only [afterTurn, hu, if_true]
      omega
    simp only [e]
    simp [afterTurn, List.append_assoc]

theorem loop_all_fail (cfg : Config) (os : Os) (fileMap : HANDLE) (size : Nat) :
    ∀ (n it : Nat) (w : World), (∀ i, i < n → os.mapViewOfFileEx (w.nMap + i) = 0) →
      MapFileAtTopAddresses_loop cfg os fileMap size n it w =
        (.ok 0, (turns cfg os fileMap size n it w).emit (.print "FAILED to map\n")) := by
  intro n
  induction n with
  | zero => intro it w _; rfl
  | succ n ih =>
    intro it w h
    have h0 : os.mapViewOfFileEx w.nMap = 0 := by simpa using h 0 (Nat.succ_pos n)
    rw [loop_succ_of_fail _ _ _ _ _ _ _ h0, ih, turns]
    intro i hi
    have := h (i + 1) (Nat.succ_lt_succ hi)
    simpa [afterTurn, Nat.add_assoc, Nat.add_comm 1 i] using this

theorem loop_first_hit (cfg : Config) (os : Os) (fileMap : HANDLE) (size : Nat) :
    ∀ (k n it : Nat) (w : World), k < n →
      (∀ i, i < k → os.mapViewOfFileEx (w.nMap + i) = 0) →
      os.mapViewOfFileEx (w.nMap + k) ≠ 0 →
      MapFileAtTopAddresses_loop cfg os fileMap size n it w =
        (verdict cfg os (turns cfg os fileMap size k it w),
          turns cfg os fileMap size (k + 1) it w) := by
  intro k
  induction k with
  | zero =>
    intro n it w hn _ hk
    obtain ⟨m, rfl⟩ : ∃ m, n = m + 1 := ⟨n - 1, by omega⟩
    rw [loop_succ_of_hit _ _ _ _ _ _ _ (by simpa using hk)]
    rfl
  | succ k ih =>
    intro n it w hn h hk
    obtain ⟨m, rfl⟩ : ∃ m, n = m + 1 := ⟨n - 1, by omega⟩
    have h0 : os.mapViewOfFileEx w.nMap = 0 := by simpa using h 0 (Nat.succ_pos k)
    rw [loop_succ_of_fail _ _ _ _ _ _ _ h0, ih m (it + 1) _ (by omega)]
    · rfl
    · intro i hi
      have := h (i + 1) (Nat.succ_lt_succ hi)
      simpa [afterTurn, Nat.add_assoc, Nat.add_comm 1 i] using this
    · simpa [afterTurn, Nat.add_assoc, Nat.add_comm 1 k] using hk

/-! ## Counting in the log of the loop -/

theorem attempts_append (a b : List Call) : attempts (a ++ b) = attempts a + attempts b := by
  simp [attempts, List.countP_append]

theorem resolutions_append (a b : List Call) :
    resolutions (a ++ b) = resolutions a + resolutions b := by
  simp [resolutions, List.countP_append]

theorem attempts_turnCalls (cfg : Config) (os : Os) (fileMap : HANDLE) (size it a m : Nat) :
    attempts (turnCalls cfg os fileMap size it a m) = 1 := by
  cases hu : cfg.UseTopAddresses <;> cases hl : cfg.LogCollisions <;>
    by_cases hm : os.mapViewOfFileEx m = 0 <;>
    simp [attempts, turnCalls, resolveCalls, Call.isMapView, hu, hl, hm, List.countP_cons]

theorem resolutions_turnCalls (cfg : Config) (os : Os) (fileMap : HANDLE) (size it a m : Nat) :
    resolutions (turnCalls cfg os fileMap size it a m) = 1 := by
  cases hu : cfg.UseTopAddresses <;> cases hl : cfg.LogCollisions <;>
    by_cases hm : os.mapViewOfFileEx m = 0 <;>
    simp [resolutions, turnCalls, resolveCalls, Call.isResolve, hu, hl, hm, List.countP_cons]

theorem filter_turnCalls (cfg : Config) (os : Os) (fileMap : HANDLE) (size it a m : Nat) :
    (turnCalls cfg os fileMap size it a m).filter Call.isResolveOrMapView =
      [.getTopFreeAddress size (hintAt cfg os a),
        .mapViewOfFileEx fileMap size (hintAt cfg os a) (os.mapViewOfFileEx m)] := by
  cases hu : cfg.UseTopAddresses <;> cases hl : cfg.LogCollisions <;>
    by_cases hm : os.mapViewOfFileEx m = 0 <;>
    simp [turnCalls, resolveCalls, hintAt, Call.isResolveOrMapView, Call.isResolve,
      Call.isMapView, hu, hl, hm, List.filter_cons]

theorem countP_flatMap_one {α β : Type} (p : β → Bool) (f : α → List β) :
    ∀ l : List α, (∀ x, (f x).countP p = 1) → (l.flatMap f).countP p = l.length := by
  intro l h
  induction l with
  | nil => simp
  | cons x xs ih => simp [List.flatMap_cons, List.countP_append, h, ih, Nat.add_comm]

theorem filter_flatMap_eq {α β : Type} (p : β → Bool) (f : α → List β) :
    ∀ l : List α, (l.flatMap f).filter p = l.flatMap (fun x => (f x).filter p) := by
  intro l
  induction l with
  | nil => simp
  | cons x xs ih => simp [List.flatMap_cons, List.filter_append, ih]

theorem attempts_turnsCalls (cfg : Config) (os : Os) (fileMap : HANDLE) (size it : Nat)
    (w : World) (j : Nat) : attempts (turnsCalls cfg os fileMap size it w j) = j := by
  unfold attempts turnsCalls
  rw [countP_flatMap_one]
  · simp
  · intro x; exact attempts_turnCalls _ _ _ _ _ _ _

theorem resolutions_turnsCalls (cfg : Config) (os : Os) (fileMap : HANDLE) (size it : Nat)
    (w : World) (j : Nat) : resolutions (turnsCalls cfg os fileMap size it w j) = j := by
  unfold resolutions turnsCalls
  rw [countP_flatMap_one]
  · simp
  · intro x; exact resolutions_turnCalls _ _ _ _ _ _ _

theorem filter_turnsCalls (cfg : Config) (os : Os) (fileMap : HANDLE) (size it : Nat)
    (w : World) (j : Nat) :
    (turnsCalls cfg os fileMap size it w j).filter Call.isResolveOrMapView =
      (List.range j).flatMap (fun i =>
        [.getTopFreeAddress size (hintAt cfg os (w.nAlloc + i)),
          .mapViewOfFileEx fileMap size (hintAt cfg os (w.nAlloc + i))
            (os.mapViewOfFileEx (w.nMap + i))]) := by
  unfold turnsCalls
  rw [filter_flatMap_eq]
  simp only [filter_turnCalls]

theorem turnCalls_hit_last (cfg : Config) (os : Os) (fileMap : HANDLE) (size it a m : Nat)
    (h : os.mapViewOfFileEx m ≠ 0) :
    turnCalls cfg os fileMap size it a m =
      resolveCalls cfg os size a
        ++ [.mapViewOfFileEx fileMap size (hintAt cfg os a) (os.mapViewOfFileEx m)] := by
  simp [turnCalls, h]

theorem turns_hintAt (cfg : Config) (os : Os) (fileMap : HANDLE) (size : Nat)
    (j it : Nat) (w : World) :
    hintAt cfg os (turns cfg os fileMap size j it w).nAlloc = hintAt cfg os (w.nAlloc + j) :=
  hintAt_index cfg os _ _ (fun hu => turns_nAlloc cfg os fileMap size j it w hu)

/-! ## The retry loop: claims -/

theorem turns_succ_log (cfg : Config) (os : Os) (fileMap : HANDLE) (size k it : Nat)
    (w : World) (hk : os.mapViewOfFileEx (w.nMap + k) ≠ 0) :
    (turns cfg os fileMap size (k + 1) it w).log =
      w.log ++ (turnsCalls cfg os fileMap size it w k
        ++ resolveCalls cfg os size (w.nAlloc + k))
        ++ [.mapViewOfFileEx fileMap size (hintAt cfg os (w.nAlloc + k))
              (os.mapViewOfFileEx (w.nMap + k))] := by
  rw [turns_log, List.range_succ, List.flatMap_append]
  simp [turnsCalls, turnCalls_hit_last _ _ _ _ _ _ _ hk, List.append_assoc]

/-- C1: when every view-mapping attempt fails, `MapFileAtTopAddresses` returns the empty
view (`nullptr`) and not an exception, and the calls it made contain exactly `RetryCount`
view-mapping attempts; no view is live that was not live before. -/
theorem mapWithRetry_exhausts_exactly_R (cfg : Config) (os : Os) (fileMap : HANDLE)
    (mapSize : Nat) (w : World)
    (hfail : ∀ i, i < cfg.RetryCount → os.mapViewOfFileEx (w.nMap + i) = 0) :
    (MapFileAtTopAddresses cfg os fileMap mapSize w).1 = .ok 0 ∧
    (MapFileAtTopAddresses cfg os fileMap mapSize w).2.views = w.views ∧
    ∃ calls, (MapFileAtTopAddresses cfg os fileMap mapSize w).2.log = w.log ++ calls ∧
      attempts calls = cfg.RetryCount := by
  unfold MapFileAtTopAddresses
  rw [loop_all_fail cfg os fileMap mapSize cfg.RetryCount 0 w hfail]
  refine ⟨rfl, ?_, turnsCalls cfg os fileMap mapSize 0 w cfg.RetryCount
      ++ [.print "FAILED to map\n"], ?_, ?_⟩
  · simp [World.emit, turns_views cfg os fileMap mapSize cfg.RetryCount 0 w hfail]
  · simp [World.emit, turns_log, turnsCalls]
  · rw [attempts_append, attempts_turnsCalls]
    simp [attempts, Call.isMapView]

theorem mapWithRetry_exhausts_exactly_R_witness :
    (∀ i, i < sourceConfig.RetryCount → osAllFail.mapViewOfFileEx (World.init.nMap + i) = 0) ∧
    (MapFileAtTopAddresses sourceConfig osAllFail (.valid 2) 4096 World.init).1 = .ok 0 ∧
    (MapFileAtTopAddresses sourceConfig osAllFail (.valid 2) 4096 World.init).2.views
      = World.init.views ∧
    ∃ calls, (MapFileAtTopAddresses sourceConfig osAllFail (.valid 2) 4096 World.init).2.log
        = World.init.log ++ calls ∧ attempts calls = sourceConfig.RetryCount :=
  ⟨fun _ _ => rfl,
    mapWithRetry_exhausts_exactly_R sourceConfig osAllFail (.valid 2) 4096 World.init
      (fun _ _ => rfl)⟩

theorem loop_attempts_le (cfg : Config) (os : Os) (fileMap : HANDLE) (size : Nat) :
    ∀ (n it : Nat) (w : World),
      ∃ calls, (MapFileAtTopAddresses_loop cfg os fileMap size n it w).2.log = w.log ++ calls ∧
        attempts calls ≤ n ∧ resolutions calls = attempts calls := by
  intro n
  induction n with
  | zero =>
    intro it w
    exact ⟨[.print "FAILED to map\n"], rfl, by simp [attempts, Call.isMapView],
      by simp [attempts, resolutions, Call.isMapView, Call.isResolve]⟩
  | succ n ih =>
    intro it w
    by_cases h0 : os.mapViewOfFileEx w.nMap = 0
    · rw [loop_succ_of_fail _ _ _ _ _ _ _ h0]
      obtain ⟨calls, hlog, hle, heq⟩ := ih (it + 1) (afterTurn cfg os fileMap size it w)
      refine ⟨turnCalls cfg os fileMap size it w.nAlloc w.nMap ++ calls, ?_, ?_, ?_⟩
      · rw [hlog]; simp [afterTurn, List.append_assoc]
      · rw [attempts_append, attempts_turnCalls]; omega
      · rw [attempts_append, resolutions_append, attempts_turnCalls, resolutions_turnCalls,
          heq]
    · rw [loop_succ_of_hit _ _ _ _ _ _ _ h0]
      refine ⟨turnCalls cfg os fileMap size it w.nAlloc w.nMap, rfl, ?_, ?_⟩
      · rw [attempts_turnCalls]; omega
      · rw [attempts_turnCalls, resolutions_turnCalls]

/-- C8: when the first view-mapping attempt that does not fail is the one of index
`k < RetryCount`, the calls of `MapFileAtTopAddresses` end with that attempt; they contain
exactly `k + 1` attempts and exactly `k + 1` returns of `GetTopFreeAddress`, and, read
in order, they alternate: resolver `0`, attempt `0` at the hint just resolved, ..., resolver
`k`, attempt `k`. Whatever the operating system answers, the attempts are at most
`RetryCount`, and as many as the calls of the resolver. -/
theorem mapWithRetry_stops_at_first_success (cfg : Config) (os : Os) (fileMap : HANDLE)
    (mapSize : Nat) (w : World) :
    (∀ k, k < cfg.RetryCount →
      (∀ i, i < k → os.mapViewOfFileEx (w.nMap + i) = 0) →
      os.mapViewOfFileEx (w.nMap + k) ≠ 0 →
      ∃ calls,
        (MapFileAtTopAddresses cfg os fileMap mapSize w).2.log =
          w.log ++ calls ++ [.mapViewOfFileEx fileMap mapSize (hintAt cfg os (w.nAlloc + k))
            (os.mapViewOfFileEx (w.nMap + k))] ∧
        attempts (calls ++ [.mapViewOfFileEx fileMap mapSize (hintAt cfg os (w.nAlloc + k))
            (os.mapViewOfFileEx (w.nMap + k))]) = k + 1 ∧
        resolutions (calls ++ [.mapViewOfFileEx fileMap mapSize
            (hintAt cfg os (w.nAlloc + k)) (os.mapViewOfFileEx (w.nMap + k))]) = k + 1 ∧
        (calls ++ [.mapViewOfFileEx fileMap mapSize (hintAt cfg os (w.nAlloc + k))
            (os.mapViewOfFileEx (w.nMap + k))]).filter Call.isResolveOrMapView =
          (List.range (k + 1)).flatMap (fun i =>
            [.getTopFreeAddress mapSize (hintAt cfg os (w.nAlloc + i)),
              .mapViewOfFileEx fileMap mapSize (hintAt cfg os (w.nAlloc + i))
                (os.mapViewOfFileEx (w.nMap + i))])) ∧
    (∃ calls, (MapFileAtTopAddresses cfg os fileMap mapSize w).2.log = w.log ++ calls ∧
      attempts calls ≤ cfg.RetryCount ∧ resolutions calls = attempts calls) := by
  refine ⟨?_, loop_attempts_le cfg os fileMap mapSize cfg.RetryCount 0 w⟩
  intro k hk hfail hhit
  have hlog := turns_succ_log cfg os fileMap mapSize k 0 w hhit
  have hfull : (turnsCalls cfg os fileMap mapSize 0 w k
        ++ resolveCalls cfg os mapSize (w.nAlloc + k))
        ++ [Call.mapViewOfFileEx fileMap mapSize (hintAt cfg os (w.nAlloc + k))
              (os.mapViewOfFileEx (w.nMap + k))]
      = turnsCalls cfg os fileMap mapSize 0 w (k + 1) := by
    simp [turnsCalls, List.range_succ, List.flatMap_append,
      turnCalls_hit_last _ _ _ _ _ _ _ hhit, List.append_assoc]
  refine ⟨turnsCalls cfg os fileMap mapSize 0 w k
      ++ resolveCalls cfg os mapSize (w.nAlloc + k), ?_, ?_, ?_, ?_⟩
  · unfold MapFileAtTopAddresses
    rw [loop_first_hit cfg os fileMap mapSize k cfg.RetryCount 0 w hk hfail hhit]
    simpa [List.append_assoc] using hlog
  · rw [hfull, attempts_turnsCalls]
  · rw [hfull, resolutions_turnsCalls]
  · rw [hfull, filter_turnsCalls]

theorem mapWithRetry_stops_at_first_success_witness :
    2 < sourceConfig.RetryCount ∧
    (∀ i, i < 2 → osThirdHit.mapViewOfFileEx (World.init.nMap + i) = 0) ∧
    osThirdHit.mapViewOfFileEx (World.init.nMap + 2) ≠ 0 ∧
    ∃ calls,
      (MapFileAtTopAddresses sourceConfig osThirdHit (.valid 2) 4096 World.init).2.log =
        World.init.log ++ calls ++ [.mapViewOfFileEx (.valid 2) 4096
          (hintAt sourceConfig osThirdHit (World.init.nAlloc + 2))
          (osThirdHit.mapViewOfFileEx (World.init.nMap + 2))] ∧
      attempts (calls ++ [.mapViewOfFileEx (.valid 2) 4096
          (hintAt sourceConfig osThirdHit (World.init.nAlloc + 2))
          (osThirdHit.mapViewOfFileEx (World.init.nMap + 2))]) = 2 + 1 ∧
      resolutions (calls ++ [.mapViewOfFileEx (.valid 2) 4096
          (hintAt sourceConfig osThirdHit (World.init.nAlloc + 2))
          (osThirdHit.mapViewOfFileEx (World.init.nMap + 2))]) = 2 + 1 ∧
      (calls ++ [.mapViewOfFileEx (.valid 2) 4096
          (hintAt sourceConfig osThirdHit (World.init.nAlloc + 2))
          (osThirdHit.mapViewOfFileEx (World.init.nMap + 2))]).filter
            Call.isResolveOrMapView =
        (List.range (2 + 1)).flatMap (fun i =>
          [.getTopFreeAddress 4096 (hintAt sourceConfig osThirdHit (World.init.nAlloc + i)),
            .mapViewOfFileEx (.valid 2) 4096
              (hintAt sourceConfig osThirdHit (World.init.nAlloc + i))
              (osThirdHit.mapViewOfFileEx (World.init.nMap + i))]) :=
  ⟨by decide, by decide, by decide,
    (mapWithRetry_stops_at_first_success sourceConfig osThirdHit (.valid 2) 4096
      World.init).1 2 (by decide) (by decide) (by decide)⟩

theorem resolveCalls_last (cfg : Config) (os : Os) (size a : Nat) :
    ∃ pre, resolveCalls cfg os size a = pre ++ [.getTopFreeAddress size (hintAt cfg os a)] := by
  cases hu : cfg.UseTopAddresses
  · exact ⟨[], by simp [resolveCalls, hintAt, hu]⟩
  · exact ⟨[.virtualAlloc size (os.virtualAlloc a), .virtualFree (os.virtualAlloc a)],
      by simp [resolveCalls, hintAt, hu]⟩

theorem loop_ok_view (cfg : Config) (os : Os) (fileMap : HANDLE) (size : Nat) :
    ∀ (n it : Nat) (w : World) (v : Addr),
      (MapFileAtTopAddresses_loop cfg os fileMap size n it w).1 = .ok v → v ≠ 0 →
      ∃ calls hint,
        (MapFileAtTopAddresses_loop cfg os fileMap size n it w).2.log =
          w.log ++ calls ++ [.getTopFreeAddress size hint,
            .mapViewOfFileEx fileMap size hint v] ∧
        (hint ≠ 0 → v = hint) := by
  intro n
  induction n with
  | zero =>
    intro it w v hv hne
    simp only [MapFileAtTopAddresses_loop, Except.ok.injEq] at hv
    exact absurd hv.symm hne
  | succ n ih =>
    intro it w v hv hne
    by_cases h0 : os.mapViewOfFileEx w.nMap = 0
    · rw [loop_succ_of_fail _ _ _ _ _ _ _ h0] at hv ⊢
      obtain ⟨calls, hint, hlog, hh⟩ := ih (it + 1) _ v hv hne
      refine ⟨turnCalls cfg os fileMap size it w.nAlloc w.nMap ++ calls, hint, ?_, hh⟩
      rw [hlog]; simp [afterTurn, List.append_assoc]
    · rw [loop_succ_of_hit _ _ _ _ _ _ _ h0] at hv ⊢
      by_cases hm : hintAt cfg os w.nAlloc ≠ 0 ∧
          hintAt cfg os w.nAlloc ≠ os.mapViewOfFileEx w.nMap
      · simp [hm] at hv
      · simp only [hm, if_false, Except.ok.injEq] at hv
        obtain ⟨pre, hpre⟩ := resolveCalls_last cfg os size w.nAlloc
        refine ⟨pre, hintAt cfg os w.nAlloc, ?_, ?_⟩
        · simp [afterTurn, turnCalls_hit_last _ _ _ _ _ _ _ h0, hpre, hv, List.append_assoc]
        · intro hh
          by_contra hc
          exact hm ⟨hh, fun e => hc (by rw [← hv, ← e])⟩

/-- C2: when `MapFileAtTopAddresses` returns a view, its last two calls are the return of
`GetTopFreeAddress` with some hint and the attempt at that hint which produced the view,
and if the hint is not null the view's address is the hint. When the first attempt that
does not fail answers an address different from a hint that is not null, the function
leaves with `std::logic_error("addr != data")`, and that attempt, the `k + 1`-th, is its
last call. -/
theorem mapWithRetry_view_at_hint_or_logic_error (cfg : Config) (os : Os) (fileMap : HANDLE)
    (mapSize : Nat) (w : World) :
    (∀ v, (MapFileAtTopAddresses cfg os fileMap mapSize w).1 = .ok v → v ≠ 0 →
      ∃ calls hint,
        (MapFileAtTopAddresses cfg os fileMap mapSize w).2.log =
          w.log ++ calls ++ [.getTopFreeAddress mapSize hint,
            .mapViewOfFileEx fileMap mapSize hint v] ∧
        (hint ≠ 0 → v = hint)) ∧
    (∀ k, k < cfg.RetryCount →
      (∀ i, i < k → os.mapViewOfFileEx (w.nMap + i) = 0) →
      os.mapViewOfFileEx (w.nMap + k) ≠ 0 →
      hintAt cfg os (w.nAlloc + k) ≠ 0 →
      hintAt cfg os (w.nAlloc + k) ≠ os.mapViewOfFileEx (w.nMap + k) →
      (MapFileAtTopAddresses cfg os fileMap mapSize w).1
          = .error (.logic_error "addr != data") ∧
        ∃ calls,
          (MapFileAtTopAddresses cfg os fileMap mapSize w).2.log =
            w.log ++ calls ++ [.mapViewOfFileEx fileMap mapSize
              (hintAt cfg os (w.nAlloc + k)) (os.mapViewOfFileEx (w.nMap + k))] ∧
          attempts (calls ++ [.mapViewOfFileEx fileMap mapSize
              (hintAt cfg os (w.nAlloc + k)) (os.mapViewOfFileEx (w.nMap + k))]) = k + 1) := by
  refine ⟨loop_ok_view cfg os fileMap mapSize cfg.RetryCount 0 w, ?_⟩
  intro k hk hfail hhit hnull hne
  have hfull : (turnsCalls cfg os fileMap mapSize 0 w k
        ++ resolveCalls cfg os mapSize (w.nAlloc + k))
        ++ [Call.mapViewOfFileEx fileMap mapSize (hintAt cfg os (w.nAlloc + k))
              (os.mapViewOfFileEx (w.nMap + k))]
      = turnsCalls cfg os fileMap mapSize 0 w (k + 1) := by
    simp [turnsCalls, List.range_succ, List.flatMap_append,
      turnCalls_hit_last _ _ _ _ _ _ _ hhit, List.append_assoc]
  unfold MapFileAtTopAddresses
  rw [loop_first_hit cfg os fileMap mapSize k cfg.RetryCount 0 w hk hfail hhit]
  refine ⟨?_, turnsCalls cfg os fileMap mapSize 0 w k
      ++ resolveCalls cfg os mapSize (w.nAlloc + k), ?_, ?_⟩
  · simp only [verdict, turns_hintAt, turns_nMap]
    rw [if_pos ⟨hnull, hne⟩]
  · simpa [List.append_assoc] using turns_succ_log cfg os fileMap mapSize k 0 w hhit
  · rw [hfull, attempts_turnsCalls]

theorem mapWithRetry_view_at_hint_or_logic_error_witness :
    (∃ calls hint,
      (MapFileAtTopAddresses sourceConfig osThirdHit (.valid 2) 4096 World.init).2.log =
        World.init.log ++ calls ++ [.getTopFreeAddress 4096 hint,
          .mapViewOfFileEx (.valid 2) 4096 hint 0x7FFC0000] ∧
      (hint ≠ 0 → 0x7FFC0000 = hint)) ∧
    ((MapFileAtTopAddresses sourceConfig osMismatch (.valid 2) 4096 World.init).1
        = .error (.logic_error "addr != data") ∧
      ∃ calls,
        (MapFileAtTopAddresses sourceConfig osMismatch (.valid 2) 4096 World.init).2.log =
          World.init.log ++ calls ++ [.mapViewOfFileEx (.valid 2) 4096
            (hintAt sourceConfig osMismatch (World.init.nAlloc + 1))
            (osMismatch.mapViewOfFileEx (World.init.nMap + 1))] ∧
        attempts (calls ++ [.mapViewOfFileEx (.valid 2) 4096
            (hintAt sourceConfig osMismatch (World.init.nAlloc + 1))
            (osMismatch.mapViewOfFileEx (World.init.nMap + 1))]) = 1 + 1) :=
  ⟨(mapWithRetry_view_at_hint_or_logic_error sourceConfig osThirdHit (.valid 2) 4096
      World.init).1 0x7FFC0000 rfl (by decide),
    (mapWithRetry_view_at_hint_or_logic_error sourceConfig osMismatch (.valid 2) 4096
      World.init).2 1 (by decide) (by decide) (by decide) (by decide) (by decide)⟩

/-! ## The address-hint resolver: claim -/

/-- C7: `GetTopFreeAddress` returns a value and never an exception. With `UseTopAddresses`
unset it returns `nullptr` and calls neither `VirtualAlloc` nor `VirtualFree`. With it set
it returns what `VirtualAlloc` answered (`nullptr` when the reservation failed), having
called `VirtualAlloc` and then `VirtualFree` on that address. In both cases the
reservations that are live after the call are those that were live before it. -/
theorem GetTopFreeAddress_total_and_releases (cfg : Config) (os : Os) (size : Nat)
    (w : World) :
    (GetTopFreeAddress cfg os size w).1 =
      .ok (if cfg.UseTopAddresses then os.virtualAlloc w.nAlloc else 0) ∧
    (GetTopFreeAddress cfg os size w).2.reserved = w.reserved ∧
    (GetTopFreeAddress cfg os size w).2.log =
      w.log ++ (if cfg.UseTopAddresses then
          [.virtualAlloc size (os.virtualAlloc w.nAlloc),
            .virtualFree (os.virtualAlloc w.nAlloc),
            .getTopFreeAddress size (os.virtualAlloc w.nAlloc)]
        else [.getTopFreeAddress size 0]) ∧
    (GetTopFreeAddress cfg os size w).2.nAlloc =
      (if cfg.UseTopAddresses then w.nAlloc + 1 else w.nAlloc) ∧
    (GetTopFreeAddress cfg os size w).2.views = w.views ∧
    (GetTopFreeAddress cfg os size w).2.handles = w.handles := by
  rw [GetTopFreeAddress_eq]
  cases hu : cfg.UseTopAddresses <;> simp [hintAt, resolveCalls, hu]

/-! ## `Map`: the length of the region -/

theorem filter_isMapView_turnCalls (cfg : Config) (os : Os) (fileMap : HANDLE)
    (size it a m : Nat) :
    (turnCalls cfg os fileMap size it a m).filter Call.isMapView =
      [.mapViewOfFileEx fileMap size (hintAt cfg os a) (os.mapViewOfFileEx m)] := by
  cases hu : cfg.UseTopAddresses <;> cases hl : cfg.LogCollisions <;>
    by_cases hm : os.mapViewOfFileEx m = 0 <;>
    simp [turnCalls, resolveCalls, hintAt, Call.isMapView, hu, hl, hm, List.filter_cons]

theorem attemptsUse_turnCalls (cfg : Config) (os : Os) (fileMap : HANDLE) (size it a m : Nat) :
    AttemptsUse fileMap size (turnCalls cfg os fileMap size it a m) := by
  intro c hc hmap
  have hmem : c ∈ (turnCalls cfg os fileMap size it a m).filter Call.isMapView :=
    List.mem_filter.2 ⟨hc, hmap⟩
  rw [filter_isMapView_turnCalls, List.mem_singleton] at hmem
  exact ⟨_, _, hmem⟩

theorem attemptsUse_append {fileMap : HANDLE} {size : Nat} {a b : List Call}
    (ha : AttemptsUse fileMap size a) (hb : AttemptsUse fileMap size b) :
    AttemptsUse fileMap size (a ++ b) := by
  intro c hc
  rcases List.mem_append.1 hc with h | h
  · exact ha c h
  · exact hb c h

theorem loop_attemptsUse (cfg : Config) (os : Os) (fileMap : HANDLE) (size : Nat) :
    ∀ (n it : Nat) (w : World),
      ∃ calls, (MapFileAtTopAddresses_loop cfg os fileMap size n it w).2.log = w.log ++ calls ∧
        AttemptsUse fileMap size calls ∧ (0 < n → 0 < attempts calls) := by
  intro n
  induction n with
  | zero =>
    intro it w
    refine ⟨[.print "FAILED to map\n"], rfl, ?_, fun h => absurd h (Nat.lt_irrefl 0)⟩
    intro c hc hmap
    simp only [List.mem_singleton] at hc
    subst hc; simp [Call.isMapView] at hmap
  | succ n ih =>
    intro it w
    by_cases h0 : os.mapViewOfFileEx w.nMap = 0
    · rw [loop_succ_of_fail _ _ _ _ _ _ _ h0]
      obtain ⟨calls, hlog, huse, _⟩ := ih (it + 1) (afterTurn cfg os fileMap size it w)
      refine ⟨turnCalls cfg os fileMap size it w.nAlloc w.nMap ++ calls, ?_,
        attemptsUse_append (attemptsUse_turnCalls _ _ _ _ _ _ _) huse, fun _ => ?_⟩
      · rw [hlog]; simp [afterTurn, List.append_assoc]
      · rw [attempts_append, attempts_turnCalls]; omega
    · rw [loop_succ_of_hit _ _ _ _ _ _ _ h0]
      exact ⟨turnCalls cfg os fileMap size it w.nAlloc w.nMap, rfl,
        attemptsUse_turnCalls _ _ _ _ _ _ _, fun _ => by rw [attempts_turnCalls]; omega⟩

theorem attemptsUse_of_none {fileMap : HANDLE} {size : Nat} {calls : List Call}
    (h : calls.filter Call.isMapView = []) : AttemptsUse fileMap size calls := by
  intro c hc hmap
  have : c ∈ calls.filter Call.isMapView := List.mem_filter.2 ⟨hc, hmap⟩
  rw [h] at this
  exact absurd this (List.not_mem_nil c)

theorem release_handle_log (h : ScopedHanle) (w : World) :
    (ScopedHanle.release h w).log = w.log ++ (if h = .null then [] else [.closeHandle h]) := by
  cases h <;> simp [ScopedHanle.release, CloseHandle, World.emit]

theorem release_view_log (p : ScopedViewOfFile) (w : World) :
    (ScopedViewOfFile.release p w).log =
      w.log ++ (if p = 0 then [] else [.unmapViewOfFile p]) := by
  by_cases hp : p = 0 <;> simp [ScopedViewOfFile.release, UnmapViewOfFile, hp]

theorem acquire_log (w : World) (h : HANDLE) : (w.acquire h).log = w.log := by
  cases h <;> rfl

theorem afterSetup_log (os : Os) (file : String) (q : Int) (w : World) :
    (afterSetup os file q w).log = w.log ++ setupCalls os file q := by
  simp [afterSetup, setupCalls, release_handle_log, World.emit, acquire_log, List.append_assoc]

theorem Map_of_setup (cfg : Config) (os : Os) (file : String) (w : World) (q : Int)
    (hA : os.createFileA file ≠ .invalid) (hq : os.getFileSizeEx = some q)
    (hM : os.createFileMapping ≠ .null) :
    Map cfg os file w =
      match MapFileAtTopAddresses cfg os os.createFileMapping
          (minWindef (1024 * 1024 * 22) (static_cast_size_t cfg q)) (afterSetup os file q w) with
      | (.error e, w5) => (.error e, ScopedHanle.release os.createFileMapping w5)
      | (.ok view, w5) =>
        (.ok (), ScopedHanle.release os.createFileMapping (ScopedViewOfFile.release view w5)) := by
  simp [Map, OpenFile, CreateFileA, GetSizeOfFile, GetFileSizeEx, CreateFileMap,
    CreateFileMapping, hA, hq, hM, afterSetup]

theorem Map_attemptsUse (cfg : Config) (os : Os) (file : String) (w : World) (q : Int)
    (hq : os.getFileSizeEx = some q) :
    ∃ calls, (Map cfg os file w).2.log = w.log ++ calls ∧
      AttemptsUse os.createFileMapping
        (minWindef (1024 * 1024 * 22) (static_cast_size_t cfg q)) calls ∧
      (os.createFileA file ≠ .invalid → os.createFileMapping ≠ .null →
        0 < cfg.RetryCount → 0 < attempts calls) := by
  by_cases hA : os.createFileA file = .invalid
  · refine ⟨[.createFileA file .invalid], ?_,
      attemptsUse_of_none (by simp [Call.isMapView]), fun h => absurd hA h⟩
    simp [Map, OpenFile, CreateFileA, hA, World.emit, acquire_log]
  · by_cases hM : os.createFileMapping = .null
    · refine ⟨setupCalls os file q, ?_, attemptsUse_of_none ?_, fun _ h => absurd hM h⟩
      · have := afterSetup_log os file q w
        simpa [Map, OpenFile, CreateFileA, GetSizeOfFile, GetFileSizeEx, CreateFileMap,
          CreateFileMapping, hA, hq, hM, afterSetup] using this
      · unfold setupCalls
        split <;> simp [Call.isMapView, List.filter_cons]
    · rw [Map_of_setup cfg os file w q hA hq hM]
      unfold MapFileAtTopAddresses
      obtain ⟨calls, hlog, huse, hpos⟩ := loop_attemptsUse cfg os os.createFileMapping
        (minWindef (1024 * 1024 * 22) (static_cast_size_t cfg q)) cfg.RetryCount 0
        (afterSetup os file q w)
      generalize MapFileAtTopAddresses_loop cfg os os.createFileMapping
        (minWindef (1024 * 1024 * 22) (static_cast_size_t cfg q)) cfg.RetryCount 0
        (afterSetup os file q w) = res at hlog ⊢
      obtain ⟨r, w5⟩ := res
      simp only [afterSetup_log] at hlog
      cases r with
      | error e =>
        refine ⟨setupCalls os file q ++ calls ++ [.closeHandle os.createFileMapping], ?_,
          attemptsUse_append (attemptsUse_append (attemptsUse_of_none ?_) huse)
            (attemptsUse_of_none (by simp [Call.isMapView])), fun _ _ hR => ?_⟩
        · simp [release_handle_log, hlog, hM, List.append_assoc]
        · unfold setupCalls
          split <;> simp [Call.isMapView, List.filter_cons]
        · rw [attempts_append, attempts_append]
          have := hpos hR
          omega
      | ok view =>
        refine ⟨setupCalls os file q ++ calls
            ++ ((if view = 0 then [] else [.unmapViewOfFile view])
              ++ [.closeHandle os.createFileMapping]), ?_,
          attemptsUse_append (attemptsUse_append (attemptsUse_of_none ?_) huse)
            (attemptsUse_of_none ?_), fun _ _ hR => ?_⟩
        · simp [release_handle_log, release_view_log, hlog, hM, List.append_assoc]
        · unfold setupCalls
          split <;> simp [Call.isMapView, List.filter_cons]
        · split <;> simp [Call.isMapView, List.filter_cons]
        · rw [attempts_append, attempts_append]
          have := hpos hR
          omega

theorem static_cast_size_t_of_fits (cfg : Config) (q : Int) (h0 : 0 ≤ q)
    (hlt : q < 2 ^ cfg.sizeBits) : ((static_cast_size_t cfg q : Nat) : Int) = q := by
  unfold static_cast_size_t
  rw [Int.emod_eq_of_lt h0 hlt]
  exact Int.toNat_of_nonneg h0

/-- C6: when the operating system reports the file size `q` and `q` is representable in
`size_t`, every view-mapping attempt that `Map` makes asks for `min(1024*1024*22, q)`
bytes; that length does not exceed `q`, and equals `q` for a file smaller than the cap.
When the file opens, the mapping is created and `RetryCount` is positive, there is such
an attempt. -/
theorem Map_region_length_is_min (cfg : Config) (os : Os) (file : String) (w : World)
    (q : Int) (hq : os.getFileSizeEx = some q) (h0 : 0 ≤ q) (hlt : q < 2 ^ cfg.sizeBits) :
    ∃ calls, (Map cfg os file w).2.log = w.log ++ calls ∧
      (∀ h size hint r, Call.mapViewOfFileEx h size hint r ∈ calls →
        (size : Int) = min (1024 * 1024 * 22) q ∧ (size : Int) ≤ q ∧
          (q < 1024 * 1024 * 22 → (size : Int) = q)) ∧
      (os.createFileA file ≠ .invalid → os.createFileMapping ≠ .null →
        0 < cfg.RetryCount → 0 < attempts calls) := by
  obtain ⟨calls, hlog, huse, hpos⟩ := Map_attemptsUse cfg os file w q hq
  refine ⟨calls, hlog, ?_, hpos⟩
  intro h size hint r hmem
  obtain ⟨hint1, r1, heq⟩ := huse _ hmem rfl
  have hsize : size = minWindef (1024 * 1024 * 22) (static_cast_size_t cfg q) := by
    injection heq
  have hcast := static_cast_size_t_of_fits cfg q h0 hlt
  have hmin : (size : Int) = min (1024 * 1024 * 22) q := by
    rw [hsize]
    unfold minWindef
    split
    · rename_i hc
      have : ((1024 * 1024 * 22 : Nat) : Int) < q := by
        rw [← hcast]; exact_mod_cast hc
      rw [min_eq_left (le_of_lt (by exact_mod_cast this))]
      norm_num
    · rename_i hc
      have : q ≤ ((1024 * 1024 * 22 : Nat) : Int) := by
        rw [← hcast]; exact_mod_cast Nat.le_of_not_lt hc
      rw [hcast, min_eq_right (by exact_mod_cast this)]
  refine ⟨hmin, ?_, ?_⟩
  · rw [hmin]; exact min_le_right _ _
  · intro hsmall
    rw [hmin]; exact min_eq_right (le_of_lt hsmall)

theorem Map_region_length_is_min_witness :
    osAllFail.getFileSizeEx = some 4096 ∧ (0 : Int) ≤ 4096 ∧
    (4096 : Int) < 2 ^ sourceConfig.sizeBits ∧
    ∃ calls, (Map sourceConfig osAllFail "a.bin" World.init).2.log = World.init.log ++ calls ∧
      (∀ h size hint r, Call.mapViewOfFileEx h size hint r ∈ calls →
        (size : Int) = min (1024 * 1024 * 22) 4096 ∧ (size : Int) ≤ 4096 ∧
          ((4096 : Int) < 1024 * 1024 * 22 → (size : Int) = 4096)) ∧
      (osAllFail.createFileA "a.bin" ≠ .invalid → osAllFail.createFileMapping ≠ .null →
        0 < sourceConfig.RetryCount → 0 < attempts calls) :=
  ⟨rfl, by decide, by decide,
    Map_region_length_is_min sourceConfig osAllFail "a.bin" World.init 4096 rfl
      (by decide) (by decide)⟩

/-! ## The harness: lemmas -/

theorem Work_ok (cfg : Config) (os : Os) (file : String) (w : World) :
    (Work cfg os file w).1 = .ok () := by
  unfold Work
  generalize Map cfg os file w = res
  obtain ⟨r, w1⟩ := res
  cases r with
  | ok u => rfl
  | error e => rfl

theorem spawnThreads_eq (it : Nat) :
    ∀ (n j : Nat) (tr : List MainEv),
      spawnThreads it n j tr = tr ++ (List.range n).map (fun i => .spawn it (j + i)) := by
  intro n
  induction n with
  | zero => intro j tr; simp [spawnThreads]
  | succ n ih =>
    intro j tr
    rw [spawnThreads, ih, List.range_succ_eq_map]
    simp [List.map_map, Function.comp_def, Nat.add_assoc, Nat.add_comm 1]

theorem joinThreads_eq (cfg : Config) (env : Env) (file : String) (it : Nat) :
    ∀ (n j : Nat) (tr : List MainEv),
      joinThreads cfg env file it n j tr =
        (true, tr ++ (List.range n).map (fun i => .join it (j + i))) := by
  intro n
  induction n with
  | zero => intro j tr; simp [joinThreads]
  | succ n ih =>
    intro j tr
    rw [joinThreads, Work_ok]
    simp only []
    rw [ih, List.range_succ_eq_map]
    simp [List.map_map, Function.comp_def, Nat.add_assoc, Nat.add_comm 1]

theorem mainLoop_eq (cfg : Config) (env : Env) (file : String) :
    ∀ (n it acc : Nat) (tr : List MainEv),
      mainLoop cfg env file n it acc tr =
        (some (sumTicks env n it acc),
          tr ++ (List.range n).flatMap (fun i => iterationEvents cfg env (it + i))) := by
  intro n
  induction n with
  | zero => intro it acc tr; simp [mainLoop, sumTicks]
  | succ n ih =>
    intro it acc tr
    rw [mainLoop]
    simp only [joinThreads_eq, spawnThreads_eq]
    rw [ih, range_succ_flatMap, sumTicks]
    have e : ∀ i, it + 1 + i = it + (i + 1) := fun i => by omega
    simp only [e]
    by_cases hn : env.createEventA it = .null <;>
      simp [iterationEvents, ticksOf, hn, List.append_assoc]

theorem main_eq (cfg : Config) (env : Env) (file : String)
    (hfile : env.getFileName = .ok file) :
    main cfg env =
      (.code 0,
        [.print ("FileName to map: " ++ file ++ "\n")]
          ++ (List.range cfg.IterationCount).flatMap (iterationEvents cfg env)
          ++ [.printAverage (sumTicks env cfg.IterationCount 0 0 / cfg.IterationCount),
              .getchar]) := by
  unfold main
  simp [hfile, mainLoop_eq]

theorem countP_flatMap_const {α β : Type} (p : β → Bool) (f : α → List β) (c : Nat) :
    ∀ l : List α, (∀ x, (f x).countP p = c) → (l.flatMap f).countP p = l.length * c := by
  intro l h
  induction l with
  | nil => simp
  | cons x xs ih => simp [List.flatMap_cons, List.countP_append, h, ih, Nat.succ_mul, Nat.add_comm]

theorem countP_spawn_range (it n : Nat) :
    ((List.range n).map (fun j => MainEv.spawn it j)).countP MainEv.isSpawn = n := by
  induction n with
  | zero => simp
  | succ n ih => simp [List.range_succ, List.countP_append, ih, MainEv.isSpawn]

theorem countP_join_range (it n : Nat) :
    ((List.range n).map (fun j => MainEv.join it j)).countP MainEv.isJoin = n := by
  induction n with
  | zero => simp
  | succ n ih => simp [List.range_succ, List.countP_append, ih, MainEv.isJoin]

theorem countP_spawn_join_range (it n : Nat) :
    ((List.range n).map (fun j => MainEv.join it j)).countP MainEv.isSpawn = 0 ∧
    ((List.range n).map (fun j => MainEv.spawn it j)).countP MainEv.isJoin = 0 := by
  constructor <;>
    (rw [List.countP_eq_zero]; intro a ha; obtain ⟨j, _, rfl⟩ := List.mem_map.1 ha
     simp [MainEv.isSpawn, MainEv.isJoin])

theorem countP_spawn_iterationEvents (cfg : Config) (env : Env) (it : Nat) :
    (iterationEvents cfg env it).countP MainEv.isSpawn = cfg.ConcurrencyCount := by
  unfold iterationEvents
  simp only [List.countP_append, countP_spawn_range, (countP_spawn_join_range it _).1]
  split <;> simp [MainEv.isSpawn, List.countP_cons]

theorem countP_join_iterationEvents (cfg : Config) (env : Env) (it : Nat) :
    (iterationEvents cfg env it).countP MainEv.isJoin = cfg.ConcurrencyCount := by
  unfold iterationEvents
  simp only [List.countP_append, countP_join_range, (countP_spawn_join_range it _).2]
  split <;> simp [MainEv.isJoin, List.countP_cons]

theorem main_spawn_count (cfg : Config) (env : Env) (file : String)
    (hfile : env.getFileName = .ok file) :
    (main cfg env).2.countP MainEv.isSpawn = cfg.IterationCount * cfg.ConcurrencyCount := by
  rw [main_eq cfg env file hfile]
  simp only [List.countP_append]
  rw [countP_flatMap_const _ _ cfg.ConcurrencyCount _ (countP_spawn_iterationEvents cfg env)]
  simp [MainEv.isSpawn, List.countP_cons]

theorem main_join_count (cfg : Config) (env : Env) (file : String)
    (hfile : env.getFileName = .ok file) :
    (main cfg env).2.countP MainEv.isJoin = cfg.IterationCount * cfg.ConcurrencyCount := by
  rw [main_eq cfg env file hfile]
  simp only [List.countP_append]
  rw [countP_flatMap_const _ _ cfg.ConcurrencyCount _ (countP_join_iterationEvents cfg env)]
  simp [MainEv.isJoin, List.countP_cons]

theorem main_not_terminate (cfg : Config) (env : Env) : (main cfg env).1 ≠ .terminate := by
  cases hfile : env.getFileName with
  | ok file => rw [main_eq cfg env file hfile]; simp
  | error e => simp [main, hfile]

theorem Map_open_error (cfg : Config) (os : Os) (file : String) (w : World)
    (h : os.createFileA file = .invalid) :
    (Map cfg os file w).1 = .error (.runtime_error "can't open file") := by
  simp [Map, OpenFile, CreateFileA, h]

/-! ## The harness: the average -/

theorem sum_range_succ_shift (f : Nat → Int) (n : Nat) :
    ((List.range (n + 1)).map f).sum = f 0 + ((List.range n).map (fun i => f (i + 1))).sum := by
  rw [List.range_succ_eq_map]
  simp [List.map_map, Function.comp_def]

theorem sum_range_nonneg (f : Nat → Int) :
    ∀ n, (∀ i, i < n → 0 ≤ f i) → 0 ≤ ((List.range n).map f).sum := by
  intro n h
  apply List.sum_nonneg
  intro x hx
  obtain ⟨i, hi, rfl⟩ := List.mem_map.1 hx
  exact h i (List.mem_range.1 hi)

theorem sum_range_ge (f : Nat → Int) (lo : Int) :
    ∀ n, (∀ i, i < n → lo ≤ f i) → lo * n ≤ ((List.range n).map f).sum := by
  intro n
  induction n with
  | zero => intro _; simp
  | succ n ih =>
    intro h
    have h1 := ih (fun i hi => h i (Nat.lt_succ_of_lt hi))
    have h2 := h n (Nat.lt_succ_self n)
    simp only [List.range_succ, List.map_append, List.sum_append, List.map_cons, List.map_nil,
      List.sum_cons, List.sum_nil, add_zero]
    push_cast
    linarith

theorem sum_range_le (f : Nat → Int) (hi : Int) :
    ∀ n, (∀ i, i < n → f i ≤ hi) → ((List.range n).map f).sum ≤ hi * n := by
  intro n
  induction n with
  | zero => intro _; simp
  | succ n ih =>
    intro h
    have h1 := ih (fun i hlt => h i (Nat.lt_succ_of_lt hlt))
    have h2 := h n (Nat.lt_succ_self n)
    simp only [List.range_succ, List.map_append, List.sum_append, List.map_cons, List.map_nil,
      List.sum_cons, List.sum_nil, add_zero]
    push_cast
    linarith

theorem toU64_of_fits (x : Int) (h0 : 0 ≤ x) (hlt : x < 2 ^ 64) : (toU64 x : Int) = x := by
  unfold toU64
  rw [Int.emod_eq_of_lt h0 hlt]
  exact Int.toNat_of_nonneg h0

theorem sumTicks_eq (env : Env) :
    ∀ (n it acc : Nat), (∀ i, i < n → 0 ≤ ticksOf env (it + i)) →
      (acc : Int) + ((List.range n).map (fun i => ticksOf env (it + i))).sum < 2 ^ 64 →
      ((sumTicks env n it acc : Nat) : Int) =
        acc + ((List.range n).map (fun i => ticksOf env (it + i))).sum := by
  intro n
  induction n with
  | zero => intro it acc _ _; simp [sumTicks]
  | succ n ih =>
    intro it acc hnn hlt
    have e : ∀ i, it + (i + 1) = it + 1 + i := fun i => by omega
    have efun : (fun i => ticksOf env (it + (i + 1))) = (fun i => ticksOf env (it + 1 + i)) := by
      funext i; rw [e]
    rw [sum_range_succ_shift, efun, Nat.add_zero] at hlt ⊢
    have h0 : 0 ≤ ticksOf env it := by simpa using hnn 0 (Nat.succ_pos n)
    have hrest : 0 ≤ ((List.range n).map (fun i => ticksOf env (it + 1 + i))).sum :=
      sum_range_nonneg _ n (fun i hi => by
        have := hnn (i + 1) (Nat.succ_lt_succ hi)
        rwa [e] at this)
    have hacc : (0 : Int) ≤ acc := Int.ofNat_nonneg acc
    have ht : ticksOf env it < 2 ^ 64 := by linarith
    have hcast := toU64_of_fits _ h0 ht
    have hfit : acc + toU64 (ticksOf env it) < 2 ^ 64 := by
      have : ((acc + toU64 (ticksOf env it) : Nat) : Int) < 2 ^ 64 := by
        push_cast; rw [hcast]; linarith
      exact_mod_cast this
    rw [sumTicks, Nat.mod_eq_of_lt hfit, ih]
    · push_cast; rw [hcast, add_assoc]; rfl
    · intro i hi
      have := hnn (i + 1) (Nat.succ_lt_succ hi)
      rwa [e] at this
    · push_cast; rw [hcast]; linarith

/-- C9: when the file name is obtained, `IterationCount` is positive, the elapsed ticks
of every iteration are not negative and their sum is below `2^64`, `main` returns `0`
and the last thing it prints is the average, which is the sum divided by
`IterationCount`, rounded down; the average is not negative, it is at least every lower
bound of the per-iteration counts (so at least the smallest) and at most every upper
bound of them (so at most the largest). -/
theorem main_reports_floor_of_mean (cfg : Config) (env : Env) (file : String)
    (hfile : env.getFileName = .ok file) (hpos : 0 < cfg.IterationCount)
    (hnn : ∀ i, i < cfg.IterationCount → 0 ≤ ticksOf env i)
    (hsum : totalTicks env cfg.IterationCount < 2 ^ 64) :
    ∃ tr avg, main cfg env = (.code 0, tr ++ [.printAverage avg, .getchar]) ∧
      (avg : Int) = totalTicks env cfg.IterationCount / cfg.IterationCount ∧
      (0 : Int) ≤ avg ∧
      (∀ lo : Int, (∀ i, i < cfg.IterationCount → lo ≤ ticksOf env i) → lo ≤ avg) ∧
      (∀ hi : Int, (∀ i, i < cfg.IterationCount → ticksOf env i ≤ hi) → (avg : Int) ≤ hi) := by
  have hs := sumTicks_eq env cfg.IterationCount 0 0 (by simpa using hnn)
    (by simpa [totalTicks] using hsum)
  have hs1 : ((sumTicks env cfg.IterationCount 0 0 : Nat) : Int)
      = totalTicks env cfg.IterationCount := by
    simpa [totalTicks] using hs
  have hN : (0 : Int) < cfg.IterationCount := by exact_mod_cast hpos
  have havg : ((sumTicks env cfg.IterationCount 0 0 / cfg.IterationCount : Nat) : Int)
      = totalTicks env cfg.IterationCount / cfg.IterationCount := by
    rw [← hs1]; norm_cast
  refine ⟨_, _, main_eq cfg env file hfile, havg, Int.ofNat_nonneg _, ?_, ?_⟩
  · intro lo hlo
    rw [havg]
    exact Int.le_ediv_of_mul_le hN (sum_range_ge _ lo _ hlo)
  · intro hi hhi
    rw [havg]
    exact Int.ediv_le_of_le_mul hN (sum_range_le _ hi _ hhi)

theorem main_reports_floor_of_mean_witness :
    envSample.getFileName = .ok "mapViewOfFile.exe" ∧ 0 < smallConfig.IterationCount ∧
    (∀ i, i < smallConfig.IterationCount → 0 ≤ ticksOf envSample i) ∧
    totalTicks envSample smallConfig.IterationCount < 2 ^ 64 ∧
    ∃ tr avg, main smallConfig envSample = (.code 0, tr ++ [.printAverage avg, .getchar]) ∧
      (avg : Int) = totalTicks envSample smallConfig.IterationCount
        / smallConfig.IterationCount ∧
      (0 : Int) ≤ avg ∧
      (∀ lo : Int, (∀ i, i < smallConfig.IterationCount → lo ≤ ticksOf envSample i) →
        lo ≤ avg) ∧
      (∀ hi : Int, (∀ i, i < smallConfig.IterationCount → ticksOf envSample i ≤ hi) →
        (avg : Int) ≤ hi) :=
  ⟨rfl, by decide, by decide, by decide,
    main_reports_floor_of_mean smallConfig envSample "mapViewOfFile.exe" rfl (by decide)
      (by decide) (by decide)⟩

/-! ## The harness: order of the events, and errors -/

/-- C10: when the file name is obtained, `main` returns `0` and the events of the main
thread are: the line with the file name; then, for each iteration `0`, ...,
`IterationCount - 1` in turn, the creation of the start event (manual reset, initially
not signalled), the spawn of the workers `0`, ..., `ConcurrencyCount - 1`, the start of
the chronometer, `SetEvent`, the join of the workers `0`, ..., `ConcurrencyCount - 1`,
the reading of the chronometer, and the closing of the event; then the average. Within
an iteration `SetEvent` thus comes after the last spawn and after the start of the
chronometer, and the events of an iteration come after the joins of the one before. -/
theorem main_iteration_order (cfg : Config) (env : Env) (file : String)
    (hfile : env.getFileName = .ok file) :
    ∃ avg, main cfg env =
      (.code 0,
        [.print ("FileName to map: " ++ file ++ "\n")]
          ++ (List.range cfg.IterationCount).flatMap (fun it =>
            [.createEventA it true false (env.createEventA it)]
              ++ (List.range cfg.ConcurrencyCount).map (fun j => .spawn it j)
              ++ [.chronometerStart it (env.now (2 * it)), .setEvent it (env.createEventA it)]
              ++ (List.range cfg.ConcurrencyCount).map (fun j => .join it j)
              ++ [.elapsedTicks it (env.now (2 * it + 1) - env.now (2 * it))]
              ++ (if env.createEventA it = .null then []
                  else [.closeHandle it (env.createEventA it)]))
          ++ [.printAverage avg, .getchar]) :=
  ⟨_, main_eq cfg env file hfile⟩

theorem main_iteration_order_witness :
    envSample.getFileName = .ok "mapViewOfFile.exe" ∧
    ∃ avg, main smallConfig envSample =
      (.code 0,
        [.print ("FileName to map: " ++ "mapViewOfFile.exe" ++ "\n")]
          ++ (List.range smallConfig.IterationCount).flatMap (fun it =>
            [.createEventA it true false (envSample.createEventA it)]
              ++ (List.range smallConfig.ConcurrencyCount).map (fun j => .spawn it j)
              ++ [.chronometerStart it (envSample.now (2 * it)),
                  .setEvent it (envSample.createEventA it)]
              ++ (List.range smallConfig.ConcurrencyCount).map (fun j => .join it j)
              ++ [.elapsedTicks it (envSample.now (2 * it + 1) - envSample.now (2 * it))]
              ++ (if envSample.createEventA it = .null then []
                  else [.closeHandle it (envSample.createEventA it)]))
          ++ [.printAverage avg, .getchar]) :=
  ⟨rfl, main_iteration_order smallConfig envSample "mapViewOfFile.exe" rfl⟩

/-- C5: whatever the operating system answers, `Work` returns normally, and when `Map`
left with an exception the only thing `Work` added is the line with its `what()`.
Hence `main` never ends in `std::terminate`, and when the file name is obtained it
returns `0` having joined `ConcurrencyCount` workers in each of the `IterationCount`
iterations. -/
theorem Work_catches_every_error (cfg : Config) :
    (∀ os file w, (Work cfg os file w).1 = .ok () ∧
      ∀ ex, (Map cfg os file w).1 = .error ex →
        (Work cfg os file w).2 = (Map cfg os file w).2.emit (.printException ex.what)) ∧
    (∀ env, (main cfg env).1 ≠ .terminate) ∧
    (∀ env file, env.getFileName = .ok file →
      (main cfg env).1 = .code 0 ∧
      (main cfg env).2.countP MainEv.isJoin = cfg.IterationCount * cfg.ConcurrencyCount) := by
  refine ⟨fun os file w => ⟨Work_ok cfg os file w, ?_⟩, main_not_terminate cfg, ?_⟩
  · intro ex hex
    unfold Work
    generalize Map cfg os file w = res at hex
    obtain ⟨r, w1⟩ := res
    simp only at hex
    subst hex
    rfl
  · intro env file hfile
    exact ⟨by rw [main_eq cfg env file hfile], main_join_count cfg env file hfile⟩

theorem Work_catches_every_error_witness :
    ((Work sourceConfig osMismatch "a.bin" World.init).1 = .ok () ∧
      (Work sourceConfig osMismatch "a.bin" World.init).2 =
        (Map sourceConfig osMismatch "a.bin" World.init).2.emit
          (.printException (Exn.logic_error "addr != data").what)) ∧
    ((main sourceConfig envSample).1 = .code 0 ∧
      (main sourceConfig envSample).2.countP MainEv.isJoin
        = sourceConfig.IterationCount * sourceConfig.ConcurrencyCount) :=
  ⟨⟨((Work_catches_every_error sourceConfig).1 osMismatch "a.bin" World.init).1,
      ((Work_catches_every_error sourceConfig).1 osMismatch "a.bin" World.init).2
        (.logic_error "addr != data") rfl⟩,
    (Work_catches_every_error sourceConfig).2.2 envSample "mapViewOfFile.exe" rfl⟩

/-- C4, as the code has it: `main` does not open the file; each worker does. When the
file name is obtained and the file cannot be opened by any worker, `main` still spawns
`ConcurrencyCount` workers in each of the `IterationCount` iterations; in each worker
`Map` leaves with `std::runtime_error("can't open file")`, which `Work` catches; and
`main` returns `0`. -/
theorem main_spawns_workers_when_open_fails (cfg : Config) (env : Env) (file : String)
    (hfile : env.getFileName = .ok file)
    (hopen : ∀ it j, (env.worker it j).createFileA file = .invalid) :
    (main cfg env).1 = .code 0 ∧
    (main cfg env).2.countP MainEv.isSpawn = cfg.IterationCount * cfg.ConcurrencyCount ∧
    ∀ it j,
      (Map cfg (env.worker it j) file World.init).1
        = .error (.runtime_error "can't open file") ∧
      (Work cfg (env.worker it j) file World.init).1 = .ok () :=
  ⟨by rw [main_eq cfg env file hfile], main_spawn_count cfg env file hfile,
    fun it j => ⟨Map_open_error cfg _ file _ (hopen it j), Work_ok cfg _ file _⟩⟩

theorem main_spawns_workers_when_open_fails_witness :
    envMissing.getFileName = .ok "missing.exe" ∧
    (∀ it j, (envMissing.worker it j).createFileA "missing.exe" = .invalid) ∧
    (main sourceConfig envMissing).1 = .code 0 ∧
    (main sourceConfig envMissing).2.countP MainEv.isSpawn
      = sourceConfig.IterationCount * sourceConfig.ConcurrencyCount ∧
    ∀ it j,
      (Map sourceConfig (envMissing.worker it j) "missing.exe" World.init).1
        = .error (.runtime_error "can't open file") ∧
      (Work sourceConfig (envMissing.worker it j) "missing.exe" World.init).1 = .ok () :=
  ⟨rfl, fun _ _ => rfl,
    main_spawns_workers_when_open_fails sourceConfig envMissing "missing.exe" rfl
      (fun _ _ => rfl)⟩

/-- C4, as stated, fails: with the constants of the source and a file that no worker can
open, `main` creates 50000 worker threads, not none, and returns `0`, not a nonzero
code. -/
theorem main_missing_file_counterexample :
    envMissing.getFileName = .ok "missing.exe" ∧
    (∀ it j, (envMissing.worker it j).createFileA "missing.exe" = .invalid) ∧
    (main sourceConfig envMissing).1 = .code 0 ∧
    (main sourceConfig envMissing).2.countP MainEv.isSpawn = 50000 ∧
    ¬ ((main sourceConfig envMissing).2.countP MainEv.isSpawn = 0 ∧
        ∃ c, c ≠ 0 ∧ (main sourceConfig envMissing).1 = .code c) := by
  have hexit : (main sourceConfig envMissing).1 = .code 0 := by
    rw [main_eq sourceConfig envMissing "missing.exe" rfl]
  have hcount : (main sourceConfig envMissing).2.countP MainEv.isSpawn = 50000 :=
    main_spawn_count sourceConfig envMissing "missing.exe" rfl
  refine ⟨rfl, fun _ _ => rfl, hexit, hcount, ?_⟩
  rintro ⟨h0, _⟩
  rw [hcount] at h0
  exact absurd h0 (by decide)

/-! ## `Map`: what is left live -/

/-- C3 fails at the attempt whose address differs from the hint: with the constants of
the source, the file opened, the mapping created, the hint `0x7FFE0000` and the answer
`0x10000` of `MapViewOfFileEx`, `Map` leaves with `std::logic_error("addr != data")`;
the mapping and the file are closed, but the view `0x10000` is still live and
`UnmapViewOfFile` was never called. -/
theorem Map_leaks_view_on_mismatch :
    (Map sourceConfig
        { createFileA := fun _ => .valid 1, getFileSizeEx := some 4096,
          createFileMapping := .valid 2, virtualAlloc := fun _ => 0x7FFE0000,
          mapViewOfFileEx := fun _ => 0x10000, getLastError := fun _ => 0, threadId := 7 }
        "a.bin" World.init) =
      (.error (.logic_error "addr != data"),
        { handles := [], views := [0x10000], reserved := [], nAlloc := 1, nMap := 1,
          log := [.createFileA "a.bin" (.valid 1), .getFileSizeEx (.valid 1) (some 4096),
            .createFileMapping (.valid 1) 0 4096 (.valid 2), .closeHandle (.valid 1),
            .virtualAlloc 4096 0x7FFE0000, .virtualFree 0x7FFE0000,
            .getTopFreeAddress 4096 0x7FFE0000,
            .mapViewOfFileEx (.valid 2) 4096 0x7FFE0000 0x10000,
            .closeHandle (.valid 2)] }) := by
  rfl

theorem loop_live (cfg : Config) (os : Os) (fileMap : HANDLE) (size : Nat) :
    ∀ (n it : Nat) (w : World),
      (MapFileAtTopAddresses_loop cfg os fileMap size n it w).2.handles = w.handles ∧
      (MapFileAtTopAddresses_loop cfg os fileMap size n it w).2.reserved = w.reserved ∧
      (((MapFileAtTopAddresses_loop cfg os fileMap size n it w).1 = .ok 0 ∧
          (MapFileAtTopAddresses_loop cfg os fileMap size n it w).2.views = w.views) ∨
        ∃ d, d ≠ 0 ∧
          (MapFileAtTopAddresses_loop cfg os fileMap size n it w).2.views = d :: w.views ∧
          ((MapFileAtTopAddresses_loop cfg os fileMap size n it w).1 = .ok d ∨
            (MapFileAtTopAddresses_loop cfg os fileMap size n it w).1
              = .error (.logic_error "addr != data"))) := by
  intro n
  induction n with
  | zero => intro it w; exact ⟨rfl, rfl, Or.inl ⟨rfl, rfl⟩⟩
  | succ n ih =>
    intro it w
    by_cases h0 : os.mapViewOfFileEx w.nMap = 0
    · rw [loop_succ_of_fail _ _ _ _ _ _ _ h0]
      have := ih (it + 1) (afterTurn cfg os fileMap size it w)
      simpa [afterTurn, h0] using this
    · rw [loop_succ_of_hit _ _ _ _ _ _ _ h0]
      refine ⟨rfl, rfl, Or.inr ⟨os.mapViewOfFileEx w.nMap, h0, by simp [afterTurn, h0], ?_⟩⟩
      by_cases hm : hintAt cfg os w.nAlloc ≠ 0 ∧
          hintAt cfg os w.nAlloc ≠ os.mapViewOfFileEx w.nMap
      · exact Or.inr (if_pos hm)
      · exact Or.inl (if_neg hm)

theorem release_handle_live (h : ScopedHanle) (w : World) :
    (ScopedHanle.release h w).handles =
        (match h with
          | .valid id => w.handles.erase id
          | _ => w.handles) ∧
      (ScopedHanle.release h w).views = w.views ∧
      (ScopedHanle.release h w).reserved = w.reserved := by
  cases h <;> simp [ScopedHanle.release, CloseHandle, World.emit]

theorem release_view_live (p : ScopedViewOfFile) (w : World) :
    (ScopedViewOfFile.release p w).views = (if p = 0 then w.views else w.views.erase p) ∧
      (ScopedViewOfFile.release p w).handles = w.handles ∧
      (ScopedViewOfFile.release p w).reserved = w.reserved := by
  by_cases hp : p = 0 <;> simp [ScopedViewOfFile.release, UnmapViewOfFile, hp]

theorem acquire_live (w : World) (h : HANDLE) :
    (w.acquire h).handles =
        (match h with
          | .valid id => id :: w.handles
          | _ => w.handles) ∧
      (w.acquire h).views = w.views ∧ (w.acquire h).reserved = w.reserved := by
  cases h <;> simp [World.acquire]

theorem erase_two (a b : Nat) (l : List Nat) : ((b :: a :: l).erase a).erase b = l := by
  by_cases hab : b = a
  · subst hab; simp
  · have hba : ¬ (b == a) = true := by simpa using hab
    rw [List.erase_cons_tail hba, List.erase_cons_head, List.erase_cons_head]

/-- Every path of `Map` but one leaves nothing live that it acquired: the kernel handles
and the reservations that are live after `Map` are those that were live before, whatever
the operating system answers, and so are the views, unless `Map` leaves with
`std::logic_error("addr != data")`, in which case the mismatched view is still live. -/
theorem Map_live_after (cfg : Config) (os : Os) (file : String) (w : World) :
    (Map cfg os file w).2.handles = w.handles ∧
    (Map cfg os file w).2.reserved = w.reserved ∧
    ((Map cfg os file w).2.views = w.views ∨
      ((Map cfg os file w).1 = .error (.logic_error "addr != data") ∧
        ∃ d, d ≠ 0 ∧ (Map cfg os file w).2.views = d :: w.views)) := by
  by_cases hA : os.createFileA file = .invalid
  · simp [Map, OpenFile, CreateFileA, hA, World.emit, World.acquire]
  · cases hq : os.getFileSizeEx with
    | none =>
      cases hf : os.createFileA file <;>
        simp_all [Map, OpenFile, CreateFileA, GetSizeOfFile, GetFileSizeEx, World.emit,
          World.acquire, ScopedHanle.release, CloseHandle]
    | some q =>
      by_cases hM : os.createFileMapping = .null
      · cases hf : os.createFileA file <;>
          simp_all [Map, OpenFile, CreateFileA, GetSizeOfFile, GetFileSizeEx, CreateFileMap,
            CreateFileMapping, World.emit, World.acquire, ScopedHanle.release, CloseHandle]
      · rw [Map_of_setup cfg os file w q hA hq hM]
        unfold MapFileAtTopAddresses
        have hsetup : (afterSetup os file q w).views = w.views ∧
            (afterSetup os file q w).reserved = w.reserved := by
          cases hf : os.createFileA file <;> cases hm : os.createFileMapping <;>
            simp [afterSetup, World.emit, World.acquire, ScopedHanle.release, CloseHandle, hf, hm]
        have hclose : ∀ w5 : World, w5.handles = (afterSetup os file q w).handles →
            (ScopedHanle.release os.createFileMapping w5).handles = w.handles := by
          intro w5 h5
          cases hf : os.createFileA file <;> cases hm : os.createFileMapping <;>
            simp_all [afterSetup, World.emit, World.acquire, ScopedHanle.release, CloseHandle,
              erase_two]
        obtain ⟨hh, hr, hv⟩ := loop_live cfg os os.createFileMapping
          (minWindef (1024 * 1024 * 22) (static_cast_size_t cfg q)) cfg.RetryCount 0
          (afterSetup os file q w)
        generalize MapFileAtTopAddresses_loop cfg os os.createFileMapping
          (minWindef (1024 * 1024 * 22) (static_cast_size_t cfg q)) cfg.RetryCount 0
          (afterSetup os file q w) = res at hh hr hv ⊢
        obtain ⟨r, w5⟩ := res
        simp only at hh hr hv
        rw [hsetup.1] at hv
        rw [hsetup.2] at hr
        cases r with
        | error e =>
          refine ⟨hclose w5 hh, by simp [(release_handle_live _ _).2.2, hr], ?_⟩
          rcases hv with ⟨h1, _⟩ | ⟨d, hd, hviews, h1 | h1⟩
          · cases h1
          · cases h1
          · refine Or.inr ⟨by injection h1 with h1; subst h1; rfl, d, hd, ?_⟩
            simp [(release_handle_live _ _).2.1, hviews]
        | ok view =>
          refine ⟨hclose _ (by rw [(release_view_live _ _).2.1]; exact hh),
            by simp [(release_handle_live _ _).2.2, (release_view_live _ _).2.2, hr], Or.inl ?_⟩
          simp only [(release_handle_live _ _).2.1, (release_view_live _ _).1]
          rcases hv with ⟨h1, hviews⟩ | ⟨d, hd, hviews, h1 | h1⟩
          · injection h1 with h1; simp [h1, hviews]
          · injection h1 with h1; subst h1; simp [hd, hviews]
          · cases h1

end MapViewOfFile
